import Mathlib

/-!
Verification of the VEIL datagram transport against its specification.

Each C++ component that the claims touch is shallowly embedded as an
executable Lean definition.  Machine integers (`uint64_t`, `uint16_t`,
`uint8_t`) are modelled as `Nat` with an explicit `% 2 ^ w` at the
operations where C++ wrap-around can occur; bytes on the wire are `Nat`
values `< 256` (they come out of `% 256` operations).  `std::map` is
modelled as an association list sorted by key, matching the ascending
iteration order of the C++ container.  Fallible operations return
`Option` or a dedicated result type.
-/

namespace Veil

/-- 2^64, the modulus of `uint64_t` arithmetic. -/
def U64 : Nat := 2 ^ 64

/-- `uint64_t` subtraction `a - b` (wraps modulo 2^64; callers pass `a b < 2^64`). -/
def u64sub (a b : Nat) : Nat := (a + U64 - b) % U64

theorem u64sub_eq (a b : Nat) (hba : b ≤ a) (ha : a < U64) : u64sub a b = a - b := by
  unfold u64sub
  have h1 : a + U64 - b = (a - b) + U64 := by omega
  have h2 : a - b < U64 := by omega
  rw [h1, Nat.add_mod_right, Nat.mod_eq_of_lt h2]

/-! ## Replay window (src/src/mux/replay_window.cpp)

State `(highest_seq_, bitmap_, initialized_)`; `WINDOW_SIZE = 64`.
`bitmap_` is a `uint64_t`, all shifts are taken `% 2^64`. -/

structure ReplayWindow where
  highest : Nat
  bitmap : Nat
  initialized : Bool
  deriving Repr, DecidableEq

namespace ReplayWindow

/-- `ReplayWindow` default-constructed state. -/
def init : ReplayWindow := ⟨0, 0, false⟩

/-- `ReplayWindow::check`.  The C++ comparison `seq + WINDOW_SIZE <= highest_seq_`
is computed in `uint64_t`, hence the explicit `% 2^64` on the sum. -/
def check (w : ReplayWindow) (seq : Nat) : Bool :=
  if !w.initialized then true
  else if (seq + 64) % U64 ≤ w.highest then false
  else if seq > w.highest then true
  else if seq = w.highest then false
  else if w.highest - seq - 1 < 64 then !(w.bitmap.testBit (w.highest - seq - 1))
  else false

/-- `ReplayWindow::update`.  `diff`/`shift` from the C++ are inlined. -/
def update (w : ReplayWindow) (seq : Nat) : ReplayWindow :=
  if !w.initialized then ⟨seq, 0, true⟩
  else if seq > w.highest then
    if seq - w.highest ≥ 64 then ⟨seq, 0, true⟩
    else ⟨seq, ((w.bitmap <<< (seq - w.highest)) ||| (1 <<< (seq - w.highest - 1))) % U64, true⟩
  else if seq < w.highest then
    if w.highest - seq - 1 < 64 then
      ⟨w.highest, (w.bitmap ||| (1 <<< (w.highest - seq - 1))) % U64, true⟩
    else w
  else w

/-- `ReplayWindow::check_and_update`: returns the accept/reject verdict and the
state after the call. -/
def checkAndUpdate (w : ReplayWindow) (seq : Nat) : Bool × ReplayWindow :=
  if w.check seq then (true, w.update seq) else (false, w)

/-- Run a sequence of `check_and_update` calls, keeping only the final state. -/
def run (w : ReplayWindow) : List Nat → ReplayWindow
  | [] => w
  | c :: cs => run (w.checkAndUpdate c).2 cs

/-- `testBit` below the width ignores the `uint64` truncation. -/
theorem testBit_mod64 (x i : Nat) (hi : i < 64) : (x % U64).testBit i = x.testBit i := by
  show (x % 2 ^ 64).testBit i = x.testBit i
  rw [Nat.testBit_mod_two_pow]
  simp [hi]

theorem testBit_one_shl (k : Nat) : (1 <<< k).testBit k = true := by
  rw [Nat.shiftLeft_eq, one_mul]
  exact Nat.testBit_two_pow_self

theorem checkAndUpdate_fst (w : ReplayWindow) (c : Nat) :
    (w.checkAndUpdate c).1 = w.check c := by
  unfold checkAndUpdate
  split <;> simp_all

/-- The acceptance condition of `check` for an initialized window,
for counters where the `seq + WINDOW_SIZE` comparison does not wrap. -/
theorem check_true_iff (w : ReplayWindow) (c : Nat)
    (hinit : w.initialized = true) (hc : c + 64 < U64) :
    w.check c = true ↔
      (w.highest < c ∨
        (1 ≤ w.highest - c ∧ w.highest - c ≤ 63 ∧
          w.bitmap.testBit (w.highest - c - 1) = false)) := by
  unfold check
  rw [Nat.mod_eq_of_lt hc]
  simp only [hinit, Bool.not_true, Bool.false_eq_true, if_false]
  split_ifs with h1 h2 h3 h4
  · simp only [Bool.false_eq_true, false_iff]
    rintro (h | ⟨h', h'', _⟩) <;> omega
  · simp only [true_iff]
    omega
  · simp only [Bool.false_eq_true, false_iff]
    rintro (h | ⟨h', h'', _⟩) <;> omega
  · rw [Bool.not_eq_true']
    constructor
    · intro hb
      exact Or.inr ⟨by omega, by omega, hb⟩
    · rintro (h | ⟨_, _, hb⟩)
      · omega
      · exact hb
  · omega

/-- Counters at least a window behind the highest are rejected. -/
theorem checkAndUpdate_reject_old (w : ReplayWindow) (c : Nat)
    (hinit : w.initialized = true) (hw : w.highest < U64) (hold : 64 ≤ w.highest - c) :
    (w.checkAndUpdate c).1 = false := by
  unfold checkAndUpdate check
  have hmod : (c + 64) % U64 = c + 64 := Nat.mod_eq_of_lt (by omega)
  rw [hmod]
  simp only [hinit, Bool.not_true, Bool.false_eq_true, if_false]
  have : c + 64 ≤ w.highest := by omega
  simp [this]

/-- `check` rejects whenever the window is at or past the counter and, if the
counter is strictly inside the window, its bit is set. -/
theorem check_false_of (u : ReplayWindow) (c : Nat) (hu : u.initialized = true)
    (h : (c + 64) % U64 ≤ u.highest ∨
      (c ≤ u.highest ∧
        (c < u.highest → u.highest - c - 1 < 64 →
          u.bitmap.testBit (u.highest - c - 1) = true))) :
    u.check c = false := by
  unfold check
  simp only [hu, Bool.not_true, Bool.false_eq_true, if_false]
  split_ifs with hA hgt heq hd
  · rfl
  · rcases h with h | ⟨h, _⟩ <;> omega
  · rfl
  · rcases h with h | ⟨hle, hbit⟩
    · omega
    · rw [hbit (by omega) hd]
      rfl
  · rfl

theorem update_initialized (w : ReplayWindow) (c' : Nat) :
    (w.update c').initialized = true := by
  unfold update
  split_ifs <;> simp_all

theorem update_highest_mono (w : ReplayWindow) (c' : Nat) (hinit : w.initialized = true) :
    w.highest ≤ (w.update c').highest := by
  unfold update
  split_ifs <;> simp_all <;> omega

/-- A counter rejected by an initialized window stays rejected after any
further `update`. -/
theorem check_false_update (w : ReplayWindow) (c c' : Nat)
    (hinit : w.initialized = true) (hcf : w.check c = false) :
    (w.update c').check c = false := by
  have hU : U64 = 18446744073709551616 := by norm_num [U64]
  have hmodle : (c + 64) % U64 ≤ c + 64 := Nat.mod_le _ _
  unfold check at hcf
  simp only [hinit, Bool.not_true, Bool.false_eq_true, if_false] at hcf
  apply check_false_of _ _ (update_initialized w c')
  split_ifs at hcf with hA hgt heq hd
  · -- window already at least 64 past c (possibly via uint64 wrap):
    -- the highest only grows, so the same branch rejects again.
    exact Or.inl (le_trans hA (update_highest_mono w c' hinit))
  · -- c equals the old highest
    unfold update
    simp only [hinit, Bool.not_true, Bool.false_eq_true, if_false]
    split_ifs with hg hs hl hsm
    · -- new highest at least 64 ahead: reject by window age
      exact Or.inl (by (try dsimp only); omega)
    · -- new highest within 64: update sets the bit for the old highest
      refine Or.inr ⟨by (try dsimp only); omega, ?_⟩
      intro h1 h2
      (try dsimp only at h1 h2 ⊢)
      have harg : c' - c - 1 = c' - w.highest - 1 := by omega
      rw [harg] at h2 ⊢
      rw [testBit_mod64 _ _ h2, Nat.testBit_or, testBit_one_shl, Bool.or_true]
    · refine Or.inr ⟨by (try dsimp only); omega, ?_⟩
      intro h1
      (try dsimp only at h1)
      omega
    · refine Or.inr ⟨by (try dsimp only); omega, ?_⟩
      intro h1
      exfalso
      omega
    · refine Or.inr ⟨by omega, ?_⟩
      intro h1
      exfalso
      omega
  · -- c strictly inside the window with its bit set
    rw [Bool.not_eq_false'] at hcf
    have hlt : c < w.highest := by omega
    unfold update
    simp only [hinit, Bool.not_true, Bool.false_eq_true, if_false]
    split_ifs with hg hs hl hsm
    · exact Or.inl (by (try dsimp only); omega)
    · -- highest advanced by shift < 64; the bit slides left by shift
      by_cases hfar : c' - c - 1 < 64
      · refine Or.inr ⟨by (try dsimp only); omega, ?_⟩
        intro h1 h2
        (try dsimp only at h1 h2 ⊢)
        rw [testBit_mod64 _ _ h2, Nat.testBit_or, Nat.testBit_shiftLeft]
        have hsplit : c' - c - 1 - (c' - w.highest) = w.highest - c - 1 := by omega
        have hle : c' - w.highest ≤ c' - c - 1 := by omega
        simp only [hsplit, hcf, decide_eq_true hle, Bool.and_true, Bool.true_or]
      · exact Or.inl (by (try dsimp only); omega)
    · -- in-window update elsewhere: bits only get added
      refine Or.inr ⟨by (try dsimp only); omega, ?_⟩
      intro h1 h2
      (try dsimp only at h1 h2 ⊢)
      rw [testBit_mod64 _ _ h2, Nat.testBit_or, hcf]
      rfl
    · exact Or.inr ⟨by omega, fun h1 h2 => by rw [hcf]⟩
    · exact Or.inr ⟨by omega, fun h1 h2 => by rw [hcf]⟩
  · -- c < highest with highest - c - 1 ≥ 64 cannot occur without the
    -- first branch having fired (no wrap is possible here)
    exfalso
    omega

/-- A counter accepted by `check_and_update` is rejected by the very next
`check` on the updated state. -/
theorem accepted_check_false (w : ReplayWindow) (c : Nat)
    (hacc : (w.checkAndUpdate c).1 = true) :
    (w.checkAndUpdate c).2.check c = false := by
  unfold checkAndUpdate at hacc ⊢
  by_cases hch : w.check c = true
  · simp only [hch, if_true]
    apply check_false_of _ _ (update_initialized w c)
    by_cases hinit : w.initialized = true
    · unfold check at hch
      simp only [hinit, Bool.not_true, Bool.false_eq_true, if_false] at hch
      split_ifs at hch with hA hgt heq hd
      · -- accepted because c is strictly ahead: c becomes the new highest
        unfold update
        simp only [hinit, Bool.not_true, Bool.false_eq_true, if_false, hgt, if_true]
        by_cases hs : c - w.highest ≥ 64
        · simp only [hs, if_true]
          exact Or.inr ⟨by (try dsimp only); omega, by (try dsimp only); omega⟩
        · simp only [hs, if_false]
          exact Or.inr ⟨by (try dsimp only); omega, by (try dsimp only); omega⟩
      · -- accepted in-window: update sets exactly this bit
        rw [Bool.not_eq_true'] at hch
        have hlt : c < w.highest := by omega
        unfold update
        simp only [hinit, Bool.not_true, Bool.false_eq_true, if_false,
          hlt, if_true, hd]
        have hngt : ¬ c > w.highest := by omega
        simp only [hngt, if_false]
        refine Or.inr ⟨by (try dsimp only); omega, ?_⟩
        intro h1 h2
        (try dsimp only at h1 h2 ⊢)
        rw [testBit_mod64 _ _ h2, Nat.testBit_or, testBit_one_shl, Bool.or_true]
    · -- first ever counter: it becomes the highest
      simp only [Bool.not_eq_true] at hinit
      unfold update
      simp only [hinit, Bool.not_false, if_true]
      exact Or.inr ⟨by (try dsimp only); omega, by (try dsimp only); omega⟩
  · simp only [Bool.not_eq_true] at hch
    simp [hch] at hacc

/-- Rejection of a counter survives any later sequence of `check_and_update`
calls. -/
theorem check_false_run (w : ReplayWindow) (c : Nat) (cs : List Nat)
    (hinit : w.initialized = true) (hcf : w.check c = false) :
    (w.run cs).check c = false := by
  induction cs generalizing w with
  | nil => exact hcf
  | cons c' cs ih =>
    unfold run
    unfold checkAndUpdate
    by_cases h : w.check c' = true
    · simp only [h, if_true]
      exact ih _ (update_initialized w c') (check_false_update w c c' hinit hcf)
    · simp only [Bool.not_eq_true] at h
      simp only [h, Bool.false_eq_true, if_false]
      exact ih _ hinit hcf

end ReplayWindow

/-- C3 as written is violated at the top of the `uint64_t` counter range:
with `highest = 100`, the counter `c = 2^64 − 1` satisfies `c > highest`, so the
claim requires acceptance, but `ReplayWindow::check` computes
`seq + WINDOW_SIZE` in `uint64_t`; the sum wraps to `63 ≤ 100` and the packet
is rejected. -/
theorem C3_counterexample :
    (ReplayWindow.checkAndUpdate ⟨100, 0, true⟩ (2 ^ 64 - 1)).1 = false ∧
      (100 : Nat) < 2 ^ 64 - 1 := by
  constructor
  · rw [ReplayWindow.checkAndUpdate_fst]
    unfold ReplayWindow.check
    norm_num [U64]
  · norm_num

/-- C3 (amended): for counters below `2^64 − 64` (so that the window-age
comparison `seq + 64 ≤ highest` cannot wrap), an initialized replay window
accepts `c` iff `c > highest` or `highest − c ∈ [1, 63]` with the bit
`highest − c − 1` unset; any `c` with `highest − c ≥ 64` is rejected; and once
a counter is accepted, every subsequent check of that same counter (after any
interleaved `check_and_update` traffic) returns false. -/
theorem C3_replay_window_law :
    (∀ (w : ReplayWindow) (c : Nat), w.initialized = true → c + 64 < U64 →
      ((w.checkAndUpdate c).1 = true ↔
        (w.highest < c ∨
          (1 ≤ w.highest - c ∧ w.highest - c ≤ 63 ∧
            w.bitmap.testBit (w.highest - c - 1) = false)))) ∧
    (∀ (w : ReplayWindow) (c : Nat), w.initialized = true → w.highest < U64 →
      64 ≤ w.highest - c → (w.checkAndUpdate c).1 = false) ∧
    (∀ (w : ReplayWindow) (c : Nat) (cs : List Nat),
      (w.checkAndUpdate c).1 = true →
      (((w.checkAndUpdate c).2.run cs).check c) = false) := by
  refine ⟨?_, ?_, ?_⟩
  · intro w c hinit hc
    rw [ReplayWindow.checkAndUpdate_fst]
    exact ReplayWindow.check_true_iff w c hinit hc
  · intro w c hinit hw hold
    exact ReplayWindow.checkAndUpdate_reject_old w c hinit hw hold
  · intro w c cs hacc
    refine ReplayWindow.check_false_run _ c cs ?_ ?_
    · unfold ReplayWindow.checkAndUpdate at hacc ⊢
      by_cases h : w.check c = true
      · simp only [h, if_true]
        exact ReplayWindow.update_initialized w c
      · simp only [Bool.not_eq_true] at h
        simp [h] at hacc
    · exact ReplayWindow.accepted_check_false w c hacc

/-- Closed witness for `C3_replay_window_law` at concrete windows: a window at
`highest = 70` with bit 2 set (counter 67 already seen) accepts 100 and 66 but
rejects 67 and 5; a freshly accepted counter 100 is rejected when checked again
after more traffic. -/
theorem C3_replay_window_law_witness :
    ((ReplayWindow.checkAndUpdate ⟨70, 4, true⟩ 100).1 = true ∧
      (ReplayWindow.checkAndUpdate ⟨70, 4, true⟩ 66).1 = true ∧
      (ReplayWindow.checkAndUpdate ⟨70, 4, true⟩ 67).1 ≠ true ∧
      (ReplayWindow.checkAndUpdate ⟨70, 4, true⟩ 5).1 = false) ∧
    (((ReplayWindow.checkAndUpdate ⟨70, 4, true⟩ 100).2.run [101, 99, 100, 3]).check 100)
      = false := by
  have h := C3_replay_window_law
  refine ⟨⟨?_, ?_, ?_, ?_⟩, ?_⟩
  · exact (h.1 ⟨70, 4, true⟩ 100 rfl (by decide)).mpr (Or.inl (by decide))
  · exact (h.1 ⟨70, 4, true⟩ 66 rfl (by decide)).mpr
      (Or.inr ⟨by decide, by decide, by decide⟩)
  · intro hcontra
    rcases (h.1 ⟨70, 4, true⟩ 67 rfl (by decide)).mp hcontra with h' | ⟨_, _, h'⟩
    · exact absurd h' (by decide)
    · exact absurd h' (by decide)
  · exact h.2.1 ⟨70, 4, true⟩ 5 rfl (by decide) (by decide)
  · exact h.2.2 ⟨70, 4, true⟩ 100 [101, 99, 100, 3]
      ((h.1 ⟨70, 4, true⟩ 100 rfl (by decide)).mpr (Or.inl (by decide)))

/-! ## Sorted association lists

`std::map<uint64_t, V>` is modelled as an association list sorted by key in
ascending order; iteration order of the C++ container is list order. -/

def lookupKey {α : Type} : List (Nat × α) → Nat → Option α
  | [], _ => none
  | (k', v') :: rest, k => if k' = k then some v' else lookupKey rest k

def eraseKey {α : Type} : List (Nat × α) → Nat → List (Nat × α)
  | [], _ => []
  | (k', v') :: rest, k => if k' = k then rest else (k', v') :: eraseKey rest k

def insertSorted {α : Type} : List (Nat × α) → Nat → α → List (Nat × α)
  | [], k, v => [(k, v)]
  | (k', v') :: rest, k, v =>
    if k < k' then (k, v) :: (k', v') :: rest
    else (k', v') :: insertSorted rest k v

def setKey {α : Type} : List (Nat × α) → Nat → α → List (Nat × α)
  | [], _, _ => []
  | (k', v') :: rest, k, v => if k' = k then (k, v) :: rest else (k', v') :: setKey rest k v

/-! ## Ack tracker (src/src/mux/ack_bitmap.cpp)

`BITMAP_SIZE = 64`.  `bitmap_ & 1` is `bitmap % 2`, `bitmap_ >>= 1` is `>>> 1`. -/

structure AckBitmap where
  ackNumber : Nat
  bitmap : Nat
  initialized : Bool
  deriving Repr, DecidableEq

namespace AckBitmap

def init : AckBitmap := ⟨0, 0, false⟩

/-- The `while (bitmap_ & 1)` loop of `mark_received`, with an explicit fuel
that makes the function reduce by `decide`.  The loop halves the bitmap each
iteration, so `bitmap` itself is always enough fuel;
`consumeContiguous_eq` below proves the definition satisfies the loop
recurrence. -/
def consumeContiguousAux : Nat → Nat → Nat → Nat × Nat
  | 0, ack, bitmap => (ack, bitmap)
  | fuel + 1, ack, bitmap =>
    if bitmap &&& 1 = 1 then consumeContiguousAux fuel (ack + 1) (bitmap >>> 1)
    else (ack, bitmap)

def consumeContiguous (ack bitmap : Nat) : Nat × Nat :=
  consumeContiguousAux bitmap ack bitmap

theorem consumeContiguousAux_congr :
    ∀ (f1 f2 ack b : Nat), b ≤ f1 → b ≤ f2 →
      consumeContiguousAux f1 ack b = consumeContiguousAux f2 ack b := by
  intro f1
  induction f1 with
  | zero =>
    intro f2 ack b hb1 _
    have hb : b = 0 := by omega
    subst hb
    cases f2 with
    | zero => rfl
    | succ f2 => simp [consumeContiguousAux]
  | succ f1 ih =>
    intro f2 ack b hb1 hb2
    cases f2 with
    | zero =>
      have hb : b = 0 := by omega
      subst hb
      simp [consumeContiguousAux]
    | succ f2 =>
      simp only [consumeContiguousAux]
      split_ifs with hbit
      · have hb : b &&& 1 = b % 2 := Nat.and_one_is_mod b
        have hs : b >>> 1 = b / 2 := Nat.shiftRight_one b
        exact ih f2 (ack + 1) (b >>> 1) (by omega) (by omega)
      · rfl

theorem consumeContiguous_eq (ack bitmap : Nat) :
    consumeContiguous ack bitmap =
      if bitmap &&& 1 = 1 then consumeContiguous (ack + 1) (bitmap >>> 1)
      else (ack, bitmap) := by
  unfold consumeContiguous
  cases bitmap with
  | zero => simp [consumeContiguousAux]
  | succ n =>
    simp only [consumeContiguousAux]
    split_ifs with hbit
    · have hb : (n + 1) &&& 1 = (n + 1) % 2 := Nat.and_one_is_mod (n + 1)
      have hs : (n + 1) >>> 1 = (n + 1) / 2 := Nat.shiftRight_one (n + 1)
      exact consumeContiguousAux_congr n ((n + 1) >>> 1) (ack + 1) ((n + 1) >>> 1)
        (by omega) (le_refl _)
    · rfl

/-- `AckBitmap::mark_received`. -/
def markReceived (a : AckBitmap) (seq : Nat) : AckBitmap :=
  if !a.initialized then ⟨seq, 0, true⟩
  else if seq ≤ a.ackNumber then a
  else if seq = a.ackNumber + 1 then
    let p := consumeContiguous (a.ackNumber + 1) (a.bitmap >>> 1)
    ⟨p.1, p.2, true⟩
  else if seq - a.ackNumber - 1 < 64 then
    ⟨a.ackNumber, a.bitmap ||| (1 <<< (seq - a.ackNumber - 1)), true⟩
  else a

end AckBitmap

/-! ## Retransmission manager (src/src/mux/retransmission.cpp)

`srtt_ms_`, `rttvar_ms_` and `rto_ms_` are `uint64_t`; `update_rtt` mixes them
with the `double` config factors and casts back with `static_cast<uint64_t>`
(truncation toward zero for the non-negative values arising here), modelled
with exact rationals and `ratTrunc`. -/

/-- Truncation of a non-negative rational to a natural number, as
`static_cast<uint64_t>` does for the non-negative doubles occurring in
`update_rtt` (a negative value would be UB in the source). -/
def ratTrunc (q : ℚ) : Nat := q.num.toNat / q.den

structure RetransmissionConfig where
  initialRtoMs : Nat := 200
  minRtoMs : Nat := 100
  maxRtoMs : Nat := 10000
  maxRetries : Nat := 5
  maxUnackedPackets : Nat := 1024
  maxUnackedBytes : Nat := 1048576
  rttAlpha : ℚ := 1/8
  rttBeta : ℚ := 1/4
  deriving Repr

structure UnackedPacket where
  data : List Nat
  sendTimeMs : Nat
  lastSentMs : Nat
  retransmitCount : Nat
  deriving Repr, DecidableEq

structure RetransmissionManager where
  config : RetransmissionConfig
  unacked : List (Nat × UnackedPacket)
  unackedBytes : Nat
  srttMs : Nat
  rttvarMs : Nat
  rtoMs : Nat
  rttInitialized : Bool
  totalRetransmits : Nat
  totalDrops : Nat
  deriving Repr

namespace RetransmissionManager

/-- Constructor: `rto_ms_(config.initial_rto_ms)`, everything else zeroed. -/
def init (cfg : RetransmissionConfig) : RetransmissionManager :=
  ⟨cfg, [], 0, 0, 0, cfg.initialRtoMs, false, 0, 0⟩

/-- `RetransmissionManager::update_rtt` (RFC 6298 discipline). -/
def updateRtt (m : RetransmissionManager) (sample : Nat) : RetransmissionManager :=
  let m :=
    if !m.rttInitialized then
      { m with srttMs := sample, rttvarMs := sample / 2, rttInitialized := true }
    else
      let delta : ℚ := (sample : ℚ) - (m.srttMs : ℚ)
      { m with
        srttMs := ratTrunc ((m.srttMs : ℚ) + m.config.rttAlpha * delta),
        rttvarMs := ratTrunc ((1 - m.config.rttBeta) * (m.rttvarMs : ℚ)
          + m.config.rttBeta * |delta|) }
  let rto := m.srttMs + 4 * m.rttvarMs
  let rto := max rto m.config.minRtoMs
  let rto := min rto m.config.maxRtoMs
  { m with rtoMs := rto }

/-- `RetransmissionManager::register_packet`. -/
def registerPacket (m : RetransmissionManager) (seq : Nat) (data : List Nat)
    (sendTimeMs : Nat) : RetransmissionManager × Bool :=
  if m.unacked.length ≥ m.config.maxUnackedPackets then (m, false)
  else if m.unackedBytes + data.length > m.config.maxUnackedBytes then (m, false)
  else if (lookupKey m.unacked seq).isSome then (m, false)
  else
    ({ m with
        unackedBytes := m.unackedBytes + data.length,
        unacked := insertSorted m.unacked seq ⟨data, sendTimeMs, sendTimeMs, 0⟩ },
      true)

/-- `RetransmissionManager::ack_packet`. -/
def ackPacket (m : RetransmissionManager) (seq ackTimeMs : Nat) : RetransmissionManager :=
  match lookupKey m.unacked seq with
  | none => m
  | some p =>
    let m := if p.retransmitCount = 0 then m.updateRtt (u64sub ackTimeMs p.sendTimeMs) else m
    { m with
        unackedBytes := m.unackedBytes - p.data.length,
        unacked := eraseKey m.unacked seq }

/-- `RetransmissionManager::process_sack`: sweep the map in ascending order
removing everything `≤ ack_number`, then ack the sequences named by the set
bits of the bitmap. -/
def processSack (m : RetransmissionManager) (ackNumber bitmap ackTimeMs : Nat) :
    RetransmissionManager :=
  let m1 := m.unacked.foldl
    (fun acc kv =>
      if kv.1 ≤ ackNumber then
        let acc :=
          if kv.2.retransmitCount = 0 then acc.updateRtt (u64sub ackTimeMs kv.2.sendTimeMs)
          else acc
        { acc with
            unackedBytes := acc.unackedBytes - kv.2.data.length,
            unacked := eraseKey acc.unacked kv.1 }
      else acc)
    m
  (List.range 64).foldl
    (fun acc i => if bitmap.testBit i then acc.ackPacket (ackNumber + 1 + i) ackTimeMs else acc)
    m1

/-- `RetransmissionManager::retransmit_expired`.  Returns the new state, the
`retransmit_callback` invocations `(seq, data)` in order, the
`drop_callback` invocations in order, and the returned count.  The RTO test
inside the loop reads the RTO as already doubled by earlier retransmissions of
the same call, exactly as the C++ loop does. -/
def retransmitExpired (m : RetransmissionManager) (currentTimeMs : Nat) :
    RetransmissionManager × List (Nat × List Nat) × List Nat × Nat :=
  let pass := m.unacked.foldl
    (fun (acc : RetransmissionManager × List (Nat × List Nat) × List Nat × Nat) kv =>
      let (st, sent, toDrop, cnt) := acc
      if u64sub currentTimeMs kv.2.lastSentMs < st.rtoMs then acc
      else if kv.2.retransmitCount ≥ st.config.maxRetries then
        (st, sent, toDrop ++ [kv.1], cnt)
      else
        ({ st with
            unacked := setKey st.unacked kv.1
              { kv.2 with lastSentMs := currentTimeMs,
                          retransmitCount := kv.2.retransmitCount + 1 },
            totalRetransmits := st.totalRetransmits + 1,
            rtoMs := min (st.rtoMs * 2) st.config.maxRtoMs },
          sent ++ [(kv.1, kv.2.data)], toDrop, cnt + 1))
    (m, [], [], 0)
  let (st, sent, toDrop, cnt) := pass
  let st := toDrop.foldl
    (fun st seq =>
      let st :=
        match lookupKey st.unacked seq with
        | some p =>
          { st with
              unackedBytes := st.unackedBytes - p.data.length,
              unacked := eraseKey st.unacked seq }
        | none => st
      { st with totalDrops := st.totalDrops + 1 })
    st
  (st, sent, toDrop, cnt)

end RetransmissionManager

/-- C5: with `initial_rto = 100 ms` and `max_retries = 3`, after
`register_packet(seq = 1)` at `t = 0` with no acknowledgment ever arriving,
`retransmit_expired` at `t = 100, 300, 700` each retransmits the stored bytes
exactly once with the RTO doubling to 200, 400, 800 (all below the
`max_rto = 10000` cap), the call at `t = 1500` retransmits nothing and drops
the entry through the drop callback, and the RTT estimator stays
uninitialized throughout. -/
theorem C5_retransmission_backoff :
    let reg : RetransmissionManager × Bool := (RetransmissionManager.init
      { initialRtoMs := 100, maxRetries := 3 }).registerPacket 1 [1, 2, 3] 0
    let r1 := reg.1.retransmitExpired 100
    let r2 := r1.1.retransmitExpired 300
    let r3 := r2.1.retransmitExpired 700
    let r4 := r3.1.retransmitExpired 1500
    reg.2 = true ∧
    r1.2.1 = [(1, [1, 2, 3])] ∧ r1.2.2.1 = [] ∧ r1.2.2.2 = 1 ∧ r1.1.rtoMs = 200 ∧
    r2.2.1 = [(1, [1, 2, 3])] ∧ r2.2.2.1 = [] ∧ r2.2.2.2 = 1 ∧ r2.1.rtoMs = 400 ∧
    r3.2.1 = [(1, [1, 2, 3])] ∧ r3.2.2.1 = [] ∧ r3.2.2.2 = 1 ∧ r3.1.rtoMs = 800 ∧
    r4.2.1 = [] ∧ r4.2.2.1 = [1] ∧ r4.2.2.2 = 0 ∧
    r4.1.unacked = [] ∧ r4.1.totalDrops = 1 ∧ r4.1.totalRetransmits = 3 ∧
    r1.1.rttInitialized = false ∧ r2.1.rttInitialized = false ∧
    r3.1.rttInitialized = false ∧ r4.1.rttInitialized = false := by
  decide

/-- C6: marking `{1, 2, 4, 5, 7}` as received (in that order, from an
uninitialized tracker) yields `ack_number = 2` and a bitmap with exactly bits
`{1, 2, 4}` set; a sender holding unacked entries `{1, ..., 7}` that processes
a SACK with that `(ack_number, bitmap)` removes exactly `{1, 2, 4, 5, 7}`,
leaving `{3, 6}` in the retransmission store. -/
theorem C6_selective_ack_round_trip :
    let ab : AckBitmap := [1, 2, 4, 5, 7].foldl AckBitmap.markReceived AckBitmap.init
    let sender := [1, 2, 3, 4, 5, 6, 7].foldl
      (fun m i => (m.registerPacket i [100 + i] 0).1) (RetransmissionManager.init {})
    let sender2 := sender.processSack ab.ackNumber ab.bitmap 0
    ab.ackNumber = 2 ∧ ab.bitmap = 2 ^ 1 + 2 ^ 2 + 2 ^ 4 ∧
    sender.unacked.map Prod.fst = [1, 2, 3, 4, 5, 6, 7] ∧
    sender2.unacked.map Prod.fst = [3, 6] := by
  decide

/-! ## Reorder buffer (src/src/mux/reorder_buffer.cpp)

The C++ deliver callback has type
`std::function<void(uint64_t seq, std::vector<uint8_t> data)>`: the payload
parameter is taken **by value**, and both `deliver()` and `flush()` invoke it
as `callback_(seq, std::move(it->second.data))`, moving the stored vector into
the parameter.  The subsequent line `buffered_bytes_ -= it->second.data.size()`
therefore reads the size of the moved-from (empty) vector, subtracting 0
whenever a callback is installed.  The model tracks whether a callback is
installed (`hasCallback`) and reproduces this: the size subtracted on delivery
is 0 when `hasCallback` is true.  Emitted `(seq, payload)` callback invocations
are returned as a list. -/

structure ReorderBufferConfig where
  maxBufferedPackets : Nat := 256
  maxBufferedBytes : Nat := 1048576
  maxDelayMs : Nat := 1000
  deriving Repr, DecidableEq

structure BufferedPacket where
  data : List Nat
  timestampMs : Nat
  deriving Repr, DecidableEq

structure ReorderBuffer where
  config : ReorderBufferConfig
  buffer : List (Nat × BufferedPacket)
  nextExpected : Nat
  bufferedBytes : Nat
  hasCallback : Bool
  deriving Repr, DecidableEq

namespace ReorderBuffer

/-- A fresh buffer (`next_expected_{1}`), with or without a deliver callback
installed. -/
def init (cfg : ReorderBufferConfig) (hasCallback : Bool) : ReorderBuffer :=
  ⟨cfg, [], 1, 0, hasCallback⟩

/-- `ReorderBuffer::insert`. -/
def insert (rb : ReorderBuffer) (seq : Nat) (data : List Nat) (timestampMs : Nat) :
    ReorderBuffer × Bool :=
  if seq < rb.nextExpected ∨ (lookupKey rb.buffer seq).isSome then (rb, false)
  else if rb.buffer.length ≥ rb.config.maxBufferedPackets then (rb, false)
  else if rb.bufferedBytes + data.length > rb.config.maxBufferedBytes then (rb, false)
  else
    ({ rb with
        bufferedBytes := rb.bufferedBytes + data.length,
        buffer := insertSorted rb.buffer seq ⟨data, timestampMs⟩ },
      true)

/-- The `while (has_deliverable())` loop of `ReorderBuffer::deliver`.  Each
iteration erases one entry, so the buffer length is enough fuel.  Returns the
new state, the callback invocations, and the returned count. -/
def deliverLoop : Nat → ReorderBuffer → ReorderBuffer × List (Nat × List Nat) × Nat
  | 0, rb => (rb, [], 0)
  | fuel + 1, rb =>
    match lookupKey rb.buffer rb.nextExpected with
    | none => (rb, [], 0)
    | some p =>
      let emitted := if rb.hasCallback then [(rb.nextExpected, p.data)] else []
      -- the stored vector was moved into the callback parameter, so the
      -- size subtracted from buffered_bytes_ is 0 when a callback is set
      let sz := if rb.hasCallback then 0 else p.data.length
      let rb' : ReorderBuffer :=
        { rb with
            bufferedBytes := rb.bufferedBytes - sz,
            buffer := eraseKey rb.buffer rb.nextExpected,
            nextExpected := rb.nextExpected + 1 }
      let rest := deliverLoop fuel rb'
      (rest.1, emitted ++ rest.2.1, rest.2.2 + 1)

/-- `ReorderBuffer::deliver`. -/
def deliver (rb : ReorderBuffer) : ReorderBuffer × List (Nat × List Nat) × Nat :=
  deliverLoop rb.buffer.length rb

/-- The timeout loop of `ReorderBuffer::flush` (after the initial `deliver()`):
while the buffer is non-empty and its oldest entry has timed out, deliver it
past the gap and run `deliver()` again. -/
def flushLoop : Nat → ReorderBuffer → Nat → ReorderBuffer × List (Nat × List Nat) × Nat
  | 0, rb, _ => (rb, [], 0)
  | fuel + 1, rb, now =>
    match rb.buffer with
    | [] => (rb, [], 0)
    | (seq, p) :: restBuf =>
      if u64sub now p.timestampMs < rb.config.maxDelayMs then (rb, [], 0)
      else
        let emitted := if rb.hasCallback then [(seq, p.data)] else []
        let sz := if rb.hasCallback then 0 else p.data.length
        let rb' : ReorderBuffer :=
          { rb with
              bufferedBytes := rb.bufferedBytes - sz,
              nextExpected := seq + 1,
              buffer := restBuf }
        let d := rb'.deliver
        let rest := flushLoop fuel d.1 now
        (rest.1, emitted ++ d.2.1 ++ rest.2.1, 1 + d.2.2 + rest.2.2)

/-- `ReorderBuffer::flush`. -/
def flush (rb : ReorderBuffer) (now : Nat) : ReorderBuffer × List (Nat × List Nat) × Nat :=
  let d := rb.deliver
  let f := flushLoop d.1.buffer.length d.1 now
  (f.1, d.2.1 ++ f.2.1, d.2.2 + f.2.2)

end ReorderBuffer

theorem range_map_cons {α : Type} (n : Nat) (f : Nat → α) :
    (List.range (n + 1)).map f = f 0 :: (List.range n).map (fun i => f (i + 1)) := by
  rw [List.range_succ_eq_map]
  simp [Function.comp]

namespace ReorderBuffer

theorem deliverLoop_run (j : Nat) :
    ∀ (cfg : ReorderBufferConfig) (k : Nat) (p : Nat → List Nat) (ts : Nat → Nat) (bytes : Nat),
      deliverLoop j ⟨cfg, (List.range j).map (fun i => (k + i, ⟨p i, ts i⟩)), k, bytes, true⟩
        = (⟨cfg, [], k + j, bytes, true⟩, (List.range j).map (fun i => (k + i, p i)), j) := by
  induction j with
  | zero =>
    intro cfg k p ts bytes
    simp [deliverLoop]
  | succ j ih =>
    intro cfg k p ts bytes
    rw [range_map_cons j (fun i => (k + i, (⟨p i, ts i⟩ : BufferedPacket)))]
    rw [range_map_cons j (fun i => (k + i, p i))]
    simp only [Nat.add_zero]
    simp only [deliverLoop, lookupKey, eraseKey, if_pos]
    have hfun : (fun i => (k + (i + 1), (⟨p (i + 1), ts (i + 1)⟩ : BufferedPacket)))
        = (fun i => ((k + 1) + i, (⟨p (i + 1), ts (i + 1)⟩ : BufferedPacket))) := by
      funext i
      rw [show k + (i + 1) = (k + 1) + i by omega]
    rw [hfun, ih _ (k + 1) (fun i => p (i + 1)) (fun i => ts (i + 1)) _]
    have hfun2 : (fun i => (k + (i + 1), p (i + 1)))
        = (fun i => ((k + 1) + i, p (i + 1))) := by
      funext i
      rw [show k + (i + 1) = (k + 1) + i by omega]
    rw [hfun2]
    simp [Nat.add_assoc, Nat.add_comm 1 j]

theorem deliver_run (j : Nat) (cfg : ReorderBufferConfig) (k : Nat) (p : Nat → List Nat)
    (ts : Nat → Nat) (bytes : Nat) :
    deliver ⟨cfg, (List.range j).map (fun i => (k + i, ⟨p i, ts i⟩)), k, bytes, true⟩
      = (⟨cfg, [], k + j, bytes, true⟩, (List.range j).map (fun i => (k + i, p i)), j) := by
  unfold deliver
  dsimp only
  rw [List.length_map, List.length_range]
  exact deliverLoop_run j cfg k p ts bytes

theorem lookupKey_none_of_lt {α : Type} :
    ∀ (l : List (Nat × α)) (k : Nat), (∀ kv ∈ l, k < kv.1) → lookupKey l k = none := by
  intro l
  induction l with
  | nil => intro k _; rfl
  | cons kv rest ih =>
    intro k h
    obtain ⟨k', v'⟩ := kv
    simp only [lookupKey]
    rw [if_neg]
    · exact ih k (fun x hx => h x (List.mem_cons_of_mem _ hx))
    · have := h (k', v') (List.mem_cons_self _ _)
      simp at this
      omega

theorem deliver_of_lookup_none (rb : ReorderBuffer)
    (h : lookupKey rb.buffer rb.nextExpected = none) : rb.deliver = (rb, [], 0) := by
  unfold deliver
  cases hl : rb.buffer.length with
  | zero => simp [deliverLoop]
  | succ n => simp [deliverLoop, h]

theorem flushLoop_nil (fuel : Nat) (rb : ReorderBuffer) (now : Nat)
    (h : rb.buffer = []) : flushLoop fuel rb now = (rb, [], 0) := by
  cases fuel with
  | zero => rfl
  | succ fuel => simp [flushLoop, h]

/-- If a gap precedes a contiguous run `{m, …, m+j}` of buffered entries
(`next_expected = k < m`) and the oldest entry has aged past `max_delay_ms`,
`flush(now)` delivers the whole run in ascending order and advances
`next_expected` to `m + j + 1`, past the skipped sequences. -/
theorem flush_gap (cfg : ReorderBufferConfig) (k m j : Nat) (p : Nat → List Nat)
    (ts : Nat → Nat) (bytes now : Nat)
    (hgap : k < m) (hts : ts 0 ≤ now) (hnow : now < U64)
    (hexp : cfg.maxDelayMs ≤ now - ts 0) :
    flush ⟨cfg, (List.range (j + 1)).map (fun i => (m + i, ⟨p i, ts i⟩)), k, bytes, true⟩ now
      = (⟨cfg, [], m + j + 1, bytes, true⟩,
         (List.range (j + 1)).map (fun i => (m + i, p i)), j + 1) := by
  have hnone : lookupKey ((List.range (j + 1)).map (fun i => (m + i, (⟨p i, ts i⟩ : BufferedPacket)))) k = none := by
    apply lookupKey_none_of_lt
    intro kv hkv
    simp only [List.mem_map, List.mem_range] at hkv
    obtain ⟨i, _, rfl⟩ := hkv
    omega
  unfold flush
  rw [deliver_of_lookup_none _ hnone]
  dsimp only
  rw [List.length_map, List.length_range]
  rw [range_map_cons j (fun i => (m + i, (⟨p i, ts i⟩ : BufferedPacket)))]
  simp only [Nat.add_zero]
  simp only [flushLoop]
  rw [u64sub_eq now (ts 0) hts hnow]
  rw [if_neg (by omega)]
  simp only [if_true, Nat.sub_zero]
  have hfun : (fun i => (m + (i + 1), (⟨p (i + 1), ts (i + 1)⟩ : BufferedPacket)))
      = (fun i => ((m + 1) + i, (⟨p (i + 1), ts (i + 1)⟩ : BufferedPacket))) := by
    funext i
    rw [show m + (i + 1) = (m + 1) + i by omega]
  rw [hfun, deliver_run j cfg (m + 1) (fun i => p (i + 1)) (fun i => ts (i + 1)) bytes]
  rw [flushLoop_nil _ _ _ rfl]
  rw [range_map_cons j (fun i => (m + i, p i))]
  have hfun2 : (fun i => (m + (i + 1), p (i + 1))) = (fun i => ((m + 1) + i, p (i + 1))) := by
    funext i
    rw [show m + (i + 1) = (m + 1) + i by omega]
  rw [hfun2]
  simp [Nat.add_assoc, Nat.add_comm 1 j]

end ReorderBuffer

/-- C8: (a) if the reorder buffer holds exactly the contiguous sequences
`{k, …, k+n}` and `next_expected = k`, `deliver()` invokes the callback
exactly `n+1` times with those payloads in strictly ascending sequence order,
emptying the buffer and advancing `next_expected` to `k+n+1`; (b) if a gap
precedes the buffered run `{m, …, m+j}` (`next_expected = k < m`) and the
oldest entry has aged at least `max_delay_ms`, `flush(now)` delivers the
buffered entries after the gap in order and advances `next_expected` past the
skipped sequences to `m+j+1`. -/
theorem C8_reorder_buffer_law :
    (∀ (cfg : ReorderBufferConfig) (k n : Nat) (p : Nat → List Nat) (ts : Nat → Nat)
        (bytes : Nat),
      (ReorderBuffer.deliver
          ⟨cfg, (List.range (n + 1)).map (fun i => (k + i, ⟨p i, ts i⟩)), k, bytes, true⟩)
        = (⟨cfg, [], k + (n + 1), bytes, true⟩,
           (List.range (n + 1)).map (fun i => (k + i, p i)), n + 1)) ∧
    (∀ (cfg : ReorderBufferConfig) (k m j : Nat) (p : Nat → List Nat) (ts : Nat → Nat)
        (bytes now : Nat), k < m → ts 0 ≤ now → now < U64 → cfg.maxDelayMs ≤ now - ts 0 →
      (ReorderBuffer.flush
          ⟨cfg, (List.range (j + 1)).map (fun i => (m + i, ⟨p i, ts i⟩)), k, bytes, true⟩ now)
        = (⟨cfg, [], m + j + 1, bytes, true⟩,
           (List.range (j + 1)).map (fun i => (m + i, p i)), j + 1)) := by
  constructor
  · intro cfg k n p ts bytes
    exact ReorderBuffer.deliver_run (n + 1) cfg k p ts bytes
  · intro cfg k m j p ts bytes now hgap hts hnow hexp
    exact ReorderBuffer.flush_gap cfg k m j p ts bytes now hgap hts hnow hexp

/-- Closed witness for `C8_reorder_buffer_law`: the run `{5, 6, 7}` with
`next_expected = 5` is delivered in order, and a buffer `{3, 4}` behind the
gap `next_expected = 1` is force-flushed at `now = 1000` with
`max_delay_ms = 1000`. -/
theorem C8_reorder_buffer_law_witness :
    (ReorderBuffer.deliver
        ⟨{}, (List.range 3).map (fun i => (5 + i, ⟨[i], 0⟩)), 5, 3, true⟩)
      = (⟨{}, [], 8, 3, true⟩, (List.range 3).map (fun i => (5 + i, [i])), 3) ∧
    (ReorderBuffer.flush
        ⟨{}, (List.range 2).map (fun i => (3 + i, ⟨[i], 0⟩)), 1, 2, true⟩ 1000)
      = (⟨{}, [], 5, 2, true⟩, (List.range 2).map (fun i => (3 + i, [i])), 2) := by
  constructor
  · exact C8_reorder_buffer_law.1 {} 5 2 (fun i => [i]) (fun _ => 0) 3
  · exact C8_reorder_buffer_law.2 {} 1 3 1 (fun i => [i]) (fun _ => 0) 2 1000
      (by norm_num) (by norm_num) (by norm_num [U64]) (by norm_num)

/-- C10 fails on the code: with a deliver callback installed (as the transport
session always does), `insert(1, one byte); deliver()` leaves
`buffered_bytes() = 1` although the buffer is empty, because the stored
payload vector is moved into the by-value callback parameter before its
`size()` is subtracted.  Without a callback the accounting is exact, isolating
the move as the cause. -/
theorem C10_buffered_bytes_leak :
    let ins : ReorderBuffer × Bool := (ReorderBuffer.init {} true).insert 1 [7] 0
    let d := ins.1.deliver
    let ins' := (ReorderBuffer.init {} false).insert 1 [7] 0
    let d' := ins'.1.deliver
    ins.2 = true ∧ ins.1.bufferedBytes = 1 ∧
    d.2.1 = [(1, [7])] ∧ d.1.buffer = [] ∧ d.1.bufferedBytes = 1 ∧
    d'.1.buffer = [] ∧ d'.1.bufferedBytes = 0 := by
  decide


/-! ## Frame and packet codec (src/src/packet/frame.cpp, packet_builder.cpp,
packet_parser.cpp)

Big-endian serialization helpers mirror `write_u64`/`write_u32`/`write_u16`
(each byte is `(value >> (i*8)) & 0xFF`) and `read_u64`/`read_u32`/`read_u16`
(`value = (value << 8) | data[i]`).  The control subtype and handshake stage
bytes are kept as raw `Nat` bytes, as the C++ casts any received byte into the
enum without validation. -/

def u16be (n : Nat) : List Nat := [n / 2 ^ 8 % 256, n % 256]

def u32be (n : Nat) : List Nat :=
  [n / 2 ^ 24 % 256, n / 2 ^ 16 % 256, n / 2 ^ 8 % 256, n % 256]

def u64be (n : Nat) : List Nat :=
  [n / 2 ^ 56 % 256, n / 2 ^ 48 % 256, n / 2 ^ 40 % 256, n / 2 ^ 32 % 256,
   n / 2 ^ 24 % 256, n / 2 ^ 16 % 256, n / 2 ^ 8 % 256, n % 256]

def readU64 (l : List Nat) : Nat := (l.take 8).foldl (fun v b => (v <<< 8) ||| b) 0

def readU32 (l : List Nat) : Nat := (l.take 4).foldl (fun v b => (v <<< 8) ||| b) 0

def readU16 (l : List Nat) : Nat := (l.take 2).foldl (fun v b => (v <<< 8) ||| b) 0

/-- The `Frame` variant (a tagged union in the source). -/
inductive Frame where
  | data (sequenceNumber : Nat) (payload : List Nat)
  | ack (ackNumber : Nat) (bitmap : Nat) (recvWindow : Nat)
  | control (subtype : Nat) (timestamp : Nat) (cdata : List Nat)
  | fragment (messageId : Nat) (fragmentIndex : Nat) (totalFragments : Nat) (payload : List Nat)
  | handshake (stage : Nat) (payload : List Nat)
  | sessionRotate (newSessionId : List Nat) (activationSequence : Nat)
  deriving Repr, DecidableEq

/-- `get_frame_type`: `DATA 0x01, ACK 0x02, CONTROL 0x03, FRAGMENT 0x04,
HANDSHAKE 0x10, SESSION_ROTATE 0x20`. -/
def frameType : Frame → Nat
  | .data .. => 0x01
  | .ack .. => 0x02
  | .control .. => 0x03
  | .fragment .. => 0x04
  | .handshake .. => 0x10
  | .sessionRotate .. => 0x20

/-- The frame payload bytes written by `PacketBuilder::serialize_frame`. -/
def framePayloadBytes : Frame → List Nat
  | .data seq payload => u64be seq ++ payload
  | .ack ackNumber bitmap recvWindow => u64be ackNumber ++ u64be bitmap ++ u32be recvWindow
  | .control subtype timestamp cdata => [subtype % 256] ++ u64be timestamp ++ cdata
  | .fragment messageId index total payload =>
      u32be messageId ++ u16be index ++ u16be total ++ payload
  | .handshake stage payload => [stage % 256] ++ payload
  | .sessionRotate newSessionId activationSequence => newSessionId ++ u64be activationSequence

/-- `PacketBuilder::serialize_frame`: 4-byte header
(`type ‖ flags = 0 ‖ u16be length`, the length being
`static_cast<uint16_t>(payload.size())`) followed by the payload. -/
def serializeFrame (f : Frame) : List Nat :=
  let payload := framePayloadBytes f
  [frameType f, 0] ++ u16be (payload.length % 2 ^ 16) ++ payload

/-- `PacketBuilder::frame_size`. -/
def frameSize : Frame → Nat
  | .data _ payload => 4 + (8 + payload.length)
  | .ack .. => 4 + 20
  | .control _ _ cdata => 4 + (9 + cdata.length)
  | .fragment _ _ _ payload => 4 + (8 + payload.length)
  | .handshake _ payload => 4 + (1 + payload.length)
  | .sessionRotate .. => 4 + 40

/-- `crypto::make_nonce`: XOR the counter little-endian into the last 8 bytes
of the 12-byte base nonce. -/
def makeNonce (base : List Nat) (counter : Nat) : List Nat :=
  base.take 4 ++ (List.range 8).map (fun i => (base.getD (4 + i) 0) ^^^ (counter / 2 ^ (i * 8) % 256))

/-- The AEAD primitive (libsodium ChaCha20-Poly1305-IETF, outside the
repository): `seal` returns `ciphertext ‖ tag` (16-byte tag appended) and
`openD` authenticates and inverts it. -/
structure AeadScheme where
  sealFn : List Nat → List Nat → List Nat → List Nat → List Nat
  openFn : List Nat → List Nat → List Nat → List Nat → Option (List Nat)

/-- A toy AEAD instance satisfying the seal/open round trip, used to
instantiate closed counterexamples (the real cipher lives outside the
repository). -/
def aeadToy : AeadScheme where
  sealFn := fun _ _ _ pt => pt ++ List.replicate 16 0
  openFn := fun _ _ _ ct =>
    if ct.length < 16 then none else some (ct.take (ct.length - 16))

structure PacketBuilder where
  mtu : Nat
  sessionId : Nat
  key : List Nat
  nonceBase : List Nat
  hasKey : Bool
  payloadBuffer : List Nat
  deriving Repr, DecidableEq

namespace PacketBuilder

def init (mtu : Nat) : PacketBuilder := ⟨mtu, 0, [], [], false, []⟩

/-- `PacketBuilder::set_encryption_key`. -/
def setEncryptionKey (b : PacketBuilder) (key nonceBase : List Nat) : PacketBuilder :=
  { b with key := key, nonceBase := nonceBase, hasKey := true }

/-- `PacketBuilder::set_session_id`. -/
def setSessionId (b : PacketBuilder) (sessionId : Nat) : PacketBuilder :=
  { b with sessionId := sessionId }

/-- `PacketBuilder::remaining_capacity`:
`mtu − PacketHeader::SIZE − POLY1305_TAG_SIZE − payload_buffer_.size()`,
with the explicit guard returning 0. -/
def remainingCapacity (b : PacketBuilder) : Nat :=
  if b.mtu ≤ 16 + 16 + b.payloadBuffer.length then 0
  else b.mtu - (16 + 16) - b.payloadBuffer.length

/-- `PacketBuilder::add_frame`.  Note the guard compares
`payload_buffer_.size() + serialized.size()` against `remaining_capacity()`,
which already subtracts `payload_buffer_.size()`. -/
def addFrame (b : PacketBuilder) (f : Frame) : PacketBuilder × Bool :=
  let serialized := serializeFrame f
  if b.payloadBuffer.length + serialized.length > b.remainingCapacity then (b, false)
  else ({ b with payloadBuffer := b.payloadBuffer ++ serialized }, true)

inductive BuildResult where
  | empty
  | noKey
  | ok (packet : List Nat)
  deriving Repr, DecidableEq

/-- `PacketBuilder::build`: returns `{}` when the frame buffer is empty,
throws (`noKey`) when no key is configured, and otherwise emits
`header(16) ‖ seal(key, nonce(base, counter), aad = header, payload)`.
It does not modify the builder; in particular the frame buffer is left
intact. -/
def build (A : AeadScheme) (b : PacketBuilder) (packetCounter : Nat) : BuildResult :=
  if b.payloadBuffer = [] then .empty
  else if !b.hasKey then .noKey
  else
    let header := u64be b.sessionId ++ u64be packetCounter
    let nonce := makeNonce b.nonceBase packetCounter
    .ok (header ++ A.sealFn b.key nonce header b.payloadBuffer)

/-- `PacketBuilder::reset`. -/
def reset (b : PacketBuilder) : PacketBuilder := { b with payloadBuffer := [] }

end PacketBuilder

inductive ParseError where
  | SUCCESS
  | PACKET_TOO_SHORT
  | DECRYPTION_FAILED
  | INVALID_FRAME
  deriving Repr, DecidableEq

structure ParsedPacket where
  sessionId : Nat
  packetCounter : Nat
  frames : List Frame
  deriving Repr, DecidableEq

/-- `PacketParser::parse_frame`. -/
def parseFrame (data : List Nat) : Option (Frame × Nat) :=
  if data.length < 4 then none
  else
    let t := data.getD 0 0
    let len := readU16 (data.drop 2)
    if data.length < 4 + len then none
    else
      let payload := (data.drop 4).take len
      let total := 4 + len
      match t with
      | 0x01 =>
        if payload.length < 8 then none
        else some (.data (readU64 payload) (payload.drop 8), total)
      | 0x02 =>
        if payload.length < 20 then none
        else some (.ack (readU64 payload) (readU64 (payload.drop 8)) (readU32 (payload.drop 16)),
          total)
      | 0x03 =>
        if payload.length < 9 then none
        else some (.control (payload.getD 0 0) (readU64 (payload.drop 1)) (payload.drop 9), total)
      | 0x04 =>
        if payload.length < 8 then none
        else some (.fragment (readU32 payload) (readU16 (payload.drop 4))
          (readU16 (payload.drop 6)) (payload.drop 8), total)
      | 0x10 =>
        if payload.length = 0 then none
        else some (.handshake (payload.getD 0 0) (payload.drop 1), total)
      | 0x20 =>
        if payload.length < 40 then none
        else some (.sessionRotate (payload.take 32) (readU64 (payload.drop 32)), total)
      | _ => none

/-- The `while (!payload.empty())` frame-decoding loop of
`PacketParser::parse`.  Every parsed frame consumes at least the 4 header
bytes, so the payload length is enough fuel. -/
def parseFramesLoop : Nat → List Nat → Option (List Frame)
  | _, [] => some []
  | 0, _ :: _ => none
  | fuel + 1, data =>
    match parseFrame data with
    | none => none
    | some (f, consumed) =>
      match parseFramesLoop fuel (data.drop consumed) with
      | none => none
      | some rest => some (f :: rest)

structure PacketParser where
  key : List Nat
  nonceBase : List Nat
  hasKey : Bool
  deriving Repr, DecidableEq

/-- `PacketParser::parse`, with the out-parameter error code folded into an
`Except`. -/
def PacketParser.parse (A : AeadScheme) (pp : PacketParser) (data : List Nat) :
    Except ParseError ParsedPacket :=
  if data.length < 16 + 16 then .error .PACKET_TOO_SHORT
  else
    let sessionId := readU64 data
    let packetCounter := readU64 (data.drop 8)
    if !pp.hasKey then .error .DECRYPTION_FAILED
    else
      let encrypted := data.drop 16
      let nonce := makeNonce pp.nonceBase packetCounter
      let aad := data.take 16
      match A.openFn pp.key nonce aad encrypted with
      | none => .error .DECRYPTION_FAILED
      | some decrypted =>
        match parseFramesLoop decrypted.length decrypted with
        | none => .error .INVALID_FRAME
        | some frames => .ok ⟨sessionId, packetCounter, frames⟩

instance {e a : Type} [DecidableEq e] [DecidableEq a] : DecidableEq (Except e a) := fun x y =>
  match x, y with
  | .ok u, .ok v =>
    if h : u = v then isTrue (by rw [h]) else isFalse (fun hc => h (Except.ok.inj hc))
  | .error u, .error v =>
    if h : u = v then isTrue (by rw [h]) else isFalse (fun hc => h (Except.error.inj hc))
  | .ok _, .error _ => isFalse (fun hc => Except.noConfusion hc)
  | .error _, .ok _ => isFalse (fun hc => Except.noConfusion hc)

/-- C4 fails on the code: with `mtu = 100` the two DATA frames below serialize
to 40 + 20 = 60 bytes, within `MTU − 16 − 16 = 68`, yet the second
`add_frame` returns false — its guard compares
`payload_buffer_.size() + serialized.size()` against `remaining_capacity()`,
which already subtracts `payload_buffer_.size()`, double-counting the buffered
bytes (40 + 60 > 68 − 40).  The datagram built afterwards decodes to the first
frame only, so `parse(build(S, counter))` does not yield `S`. -/
theorem C4_add_frame_double_counts :
    let b0 : PacketBuilder := ((PacketBuilder.init 100).setEncryptionKey (List.replicate 32 1)
      (List.replicate 12 2)).setSessionId 9
    let f1 := Frame.data 1 (List.replicate 28 0)
    let f2 := Frame.data 2 (List.replicate 8 0)
    let a1 := b0.addFrame f1
    let a2 := a1.1.addFrame f2
    let pkt := u64be 9 ++ u64be 7 ++ serializeFrame f1 ++ List.replicate 16 0
    (serializeFrame f1).length + (serializeFrame f2).length ≤ 100 - 16 - 16 ∧
    a1.2 = true ∧
    a2.2 = false ∧
    a2.1.payloadBuffer = serializeFrame f1 ∧
    a2.1.build aeadToy 7 = .ok pkt ∧
    PacketParser.parse aeadToy ⟨List.replicate 32 1, List.replicate 12 2, true⟩ pkt
      = .ok ⟨9, 7, [f1]⟩ := by
  decide

/-- C9 fails on the code as stated: after a successful `build`, the frame
buffer is *not* cleared — `payload_buffer_` still holds the serialized frame
and `remaining_capacity()` is 54, not `MTU − 32 = 68`.  (Clearing is the job
of the separate `reset()` call.) -/
theorem C9_counterexample :
    let b := (((PacketBuilder.init 100).setEncryptionKey (List.replicate 32 1)
      (List.replicate 12 2)).addFrame (Frame.data 1 [5, 6])).1
    b.build aeadToy 3
      = .ok (u64be 0 ++ u64be 3 ++
          aeadToy.sealFn (List.replicate 32 1) (makeNonce (List.replicate 12 2) 3)
            (u64be 0 ++ u64be 3) b.payloadBuffer) ∧
    b.payloadBuffer ≠ [] ∧
    b.remainingCapacity = 54 ∧
    b.mtu - 32 = 68 := by
  decide

/-- C9 (amended): `build(counter)` emits the complete datagram —
16-byte header followed by the AEAD-sealed frame bytes with tag — when the
frame buffer is non-empty and a key is configured; it returns the empty result
for an empty frame buffer and throws when no key is configured; it leaves the
frame buffer intact, and the separate `reset()` call (which callers invoke
before assembling the next packet) empties the buffer, after which
`remaining_capacity() = MTU − 32`. -/
theorem C9_build_and_reset (A : AeadScheme) (b : PacketBuilder) (counter : Nat) :
    (b.payloadBuffer = [] → b.build A counter = .empty) ∧
    (b.payloadBuffer ≠ [] → b.hasKey = false → b.build A counter = .noKey) ∧
    (b.payloadBuffer ≠ [] → b.hasKey = true →
      b.build A counter = .ok (u64be b.sessionId ++ u64be counter ++
        A.sealFn b.key (makeNonce b.nonceBase counter) (u64be b.sessionId ++ u64be counter)
          b.payloadBuffer)) ∧
    b.reset.payloadBuffer = [] ∧
    b.reset.remainingCapacity = b.mtu - 32 := by
  refine ⟨?_, ?_, ?_, rfl, ?_⟩
  · intro h
    simp [PacketBuilder.build, h]
  · intro h hk
    simp [PacketBuilder.build, h, hk]
  · intro h hk
    simp [PacketBuilder.build, h, hk]
  · unfold PacketBuilder.remainingCapacity PacketBuilder.reset
    dsimp only
    split_ifs with h
    · simp only [List.length_nil] at h
      omega
    · simp only [List.length_nil] at h ⊢
      omega

/-- Closed witness for `C9_build_and_reset` on concrete builders: an empty
builder yields `empty`, a keyless builder with one frame throws, a keyed
builder with one frame emits the sealed datagram, and `reset` restores the
full `MTU − 32` capacity. -/
theorem C9_build_and_reset_witness :
    (PacketBuilder.init 100).build aeadToy 3 = .empty ∧
    (((PacketBuilder.init 100).addFrame (Frame.data 1 [5, 6])).1.build aeadToy 3
      = .noKey) ∧
    ((((PacketBuilder.init 100).setEncryptionKey (List.replicate 32 1)
        (List.replicate 12 2)).addFrame (Frame.data 1 [5, 6])).1.build aeadToy 3
      = .ok (u64be 0 ++ u64be 3 ++
          aeadToy.sealFn (List.replicate 32 1) (makeNonce (List.replicate 12 2) 3)
            (u64be 0 ++ u64be 3)
            ((((PacketBuilder.init 100).setEncryptionKey (List.replicate 32 1)
              (List.replicate 12 2)).addFrame (Frame.data 1 [5, 6])).1.payloadBuffer))) ∧
    ((((PacketBuilder.init 100).setEncryptionKey (List.replicate 32 1)
        (List.replicate 12 2)).addFrame (Frame.data 1 [5, 6])).1.reset.remainingCapacity
      = 100 - 32) := by
  refine ⟨?_, ?_, ?_, ?_⟩
  · exact (C9_build_and_reset aeadToy (PacketBuilder.init 100) 3).1 rfl
  · exact (C9_build_and_reset aeadToy
      (((PacketBuilder.init 100).addFrame (Frame.data 1 [5, 6])).1) 3).2.1
      (by decide) (by decide)
  · exact (C9_build_and_reset aeadToy
      ((((PacketBuilder.init 100).setEncryptionKey (List.replicate 32 1)
        (List.replicate 12 2)).addFrame (Frame.data 1 [5, 6])).1) 3).2.2.1
      (by decide) (by decide)
  · exact (C9_build_and_reset aeadToy
      ((((PacketBuilder.init 100).setEncryptionKey (List.replicate 32 1)
        (List.replicate 12 2)).addFrame (Frame.data 1 [5, 6])).1) 3).2.2.2.2

/-! ## Crypto primitives interface and HKDF (src/src/crypto/hkdf.cpp)

HMAC-SHA256 and X25519 are provided by libsodium, outside the repository; the
model abstracts them as a `CryptoModel`: `hmac` always returns a 32-byte
digest (`HmacDigest = std::array<uint8_t, 32>`) and `dh` is
`crypto::key_exchange`, failing on weak/all-zero outputs.  HKDF itself is
implemented in the repository and modelled from the source. -/

structure CryptoModel where
  hmac : List Nat → List Nat → List Nat
  dh : List Nat → List Nat → Option (List Nat)
  hmac_len : ∀ k m, (hmac k m).length = 32

/-- `hkdf_extract`: empty salt is replaced by 32 zero bytes. -/
def hkdfExtract (C : CryptoModel) (salt ikm : List Nat) : List Nat :=
  if salt = [] then C.hmac (List.replicate 32 0) ikm else C.hmac salt ikm

/-- Block `T(i)` of `hkdf_expand`: `T(0)` is empty and
`T(i) = HMAC(PRK, T(i−1) ‖ info ‖ byte(i))` with the counter cast to a
byte. -/
def hkdfT (C : CryptoModel) (prk info : List Nat) : Nat → List Nat
  | 0 => []
  | i + 1 => C.hmac prk (hkdfT C prk info i ++ info ++ [(i + 1) % 256])

/-- The block-concatenation loop of `hkdf_expand`
(`n = ⌈outLen / 32⌉` blocks, truncated to `outLen`).  The guard
`outLen > 255·32 → throw` of `hkdf_expand` lives in `hkdfExpand`;
`derive_session_keys` only ever requests 32 or 12 bytes, far below it. -/
def hkdfExpandLoop (C : CryptoModel) (prk info : List Nat) (outLen : Nat) : List Nat :=
  (((List.range ((outLen + 31) / 32)).map (fun j => hkdfT C prk info (j + 1))).flatten).take outLen

/-- `hkdf_expand`, including its length guard (a C++ exception). -/
def hkdfExpand (C : CryptoModel) (prk info : List Nat) (outLen : Nat) : Option (List Nat) :=
  if outLen > 255 * 32 then none else some (hkdfExpandLoop C prk info outLen)

/-- Bytes of the info string `"veil_v1_key_i2r"`. -/
def infoKeyI2R : List Nat := [118, 101, 105, 108, 95, 118, 49, 95, 107, 101, 121, 95, 105, 50, 114]

/-- Bytes of the info string `"veil_v1_key_r2i"`. -/
def infoKeyR2I : List Nat := [118, 101, 105, 108, 95, 118, 49, 95, 107, 101, 121, 95, 114, 50, 105]

/-- Bytes of the info string `"veil_v1_nonce_i2r"`. -/
def infoNonceI2R : List Nat :=
  [118, 101, 105, 108, 95, 118, 49, 95, 110, 111, 110, 99, 101, 95, 105, 50, 114]

/-- Bytes of the info string `"veil_v1_nonce_r2i"`. -/
def infoNonceR2I : List Nat :=
  [118, 101, 105, 108, 95, 118, 49, 95, 110, 111, 110, 99, 101, 95, 114, 50, 105]

theorem infoKeyI2R_spec : infoKeyI2R = "veil_v1_key_i2r".toList.map Char.toNat := by decide

theorem infoKeyR2I_spec : infoKeyR2I = "veil_v1_key_r2i".toList.map Char.toNat := by decide

theorem infoNonceI2R_spec : infoNonceI2R = "veil_v1_nonce_i2r".toList.map Char.toNat := by decide

theorem infoNonceR2I_spec : infoNonceR2I = "veil_v1_nonce_r2i".toList.map Char.toNat := by decide

structure SessionKeys where
  sendKey : List Nat
  recvKey : List Nat
  sendNonceBase : List Nat
  recvNonceBase : List Nat
  deriving Repr, DecidableEq

/-- `crypto::derive_session_keys` (src/src/crypto/hkdf.cpp):
`prk = HKDF-Extract(session_id, shared_secret)`, then four expansions whose
send/recv assignment depends on the role flag. -/
def deriveSessionKeys (C : CryptoModel) (sharedSecret sessionId : List Nat)
    (isInitiator : Bool) : SessionKeys :=
  let prk := hkdfExtract C sessionId sharedSecret
  let keyI2R := hkdfExpandLoop C prk infoKeyI2R 32
  let keyR2I := hkdfExpandLoop C prk infoKeyR2I 32
  let nonceI2R := hkdfExpandLoop C prk infoNonceI2R 12
  let nonceR2I := hkdfExpandLoop C prk infoNonceR2I 12
  if isInitiator then ⟨keyI2R, keyR2I, nonceI2R, nonceR2I⟩
  else ⟨keyR2I, keyI2R, nonceR2I, nonceI2R⟩

/-! ## Handshake state machine (src/src/handshake/handshake.cpp)

Message envelope: `type(1) ‖ timestamp_be(8) ‖ payload_len_be(2) ‖ payload ‖
hmac(32)`, HMAC over all prior bytes with the PSK as key.  `current_time_` is
injected (`set_current_time`); the model carries it in `now`. -/

inductive HandshakeState where
  | IDLE
  | INIT_SENT
  | INIT_RECEIVED
  | RESPONSE_SENT
  | COMPLETE
  | FAILED
  deriving Repr, DecidableEq

inductive HandshakeError where
  | NONE
  | INVALID_MESSAGE
  | TIMESTAMP_OUT_OF_RANGE
  | HMAC_VERIFICATION_FAILED
  | KEY_EXCHANGE_FAILED
  | PSK_REQUIRED_BUT_MISSING
  | RATE_LIMITED
  | INTERNAL_ERROR
  deriving Repr, DecidableEq

structure HandshakeConfig where
  psk : List Nat := List.replicate 32 0
  timestampToleranceSec : Nat := 60
  deriving Repr, DecidableEq

structure Handshake where
  config : HandshakeConfig
  state : HandshakeState := .IDLE
  lastError : HandshakeError := .NONE
  ourSecretKey : List Nat
  ourPublicKey : List Nat
  peerPublicKey : List Nat := List.replicate 32 0
  sharedSecret : Option (List Nat) := none
  sessionId : List Nat := List.replicate 32 0
  transcript : List Nat := []
  now : Nat
  deriving Repr

/-- The wire bytes of `Handshake::build_message` (the payload length is cast
to `uint16_t`). -/
def mkEnvelope (C : CryptoModel) (psk : List Nat) (t ts : Nat) (payload : List Nat) :
    List Nat :=
  let pre := [t] ++ u64be ts ++ u16be (payload.length % 2 ^ 16) ++ payload
  pre ++ C.hmac psk pre

/-- `Handshake::build_message`: build the envelope and append it to the
transcript. -/
def buildMessage (C : CryptoModel) (h : Handshake) (t : Nat) (payload : List Nat) :
    Handshake × List Nat :=
  let msg := mkEnvelope C h.config.psk t h.now payload
  ({ h with transcript := h.transcript ++ msg }, msg)

/-- `Handshake::initiate`.  Returns the new state, the boolean result, and the
messages handed to the send callback. -/
def initiate (C : CryptoModel) (h : Handshake) : Handshake × Bool × List (List Nat) :=
  if h.state ≠ .IDLE then ({ h with lastError := .INTERNAL_ERROR }, false, [])
  else
    let (h, msg) := buildMessage C h 1 h.ourPublicKey
    ({ h with state := .INIT_SENT }, true, [msg])

/-- `Handshake::handle_init`. -/
def handleInit (C : CryptoModel) (h : Handshake) (payload : List Nat) :
    Handshake × Bool × List (List Nat) :=
  if h.state ≠ .IDLE then ({ h with lastError := .INVALID_MESSAGE }, false, [])
  else if payload.length ≠ 32 then ({ h with lastError := .INVALID_MESSAGE }, false, [])
  else
    let h := { h with peerPublicKey := payload }
    match C.dh h.ourSecretKey h.peerPublicKey with
    | none => ({ h with lastError := .KEY_EXCHANGE_FAILED }, false, [])
    | some z =>
      let h := { h with sharedSecret := some z, state := .INIT_RECEIVED }
      let (h, msg) := buildMessage C h 2 h.ourPublicKey
      ({ h with state := .RESPONSE_SENT }, false, [msg])

/-- `Handshake::handle_response` (sends FINISH, then derives the session id
from the full transcript and completes). -/
def handleResponse (C : CryptoModel) (h : Handshake) (payload : List Nat) :
    Handshake × Bool × List (List Nat) :=
  if h.state ≠ .INIT_SENT then ({ h with lastError := .INVALID_MESSAGE }, false, [])
  else if payload.length ≠ 32 then ({ h with lastError := .INVALID_MESSAGE }, false, [])
  else
    let h := { h with peerPublicKey := payload }
    match C.dh h.ourSecretKey h.peerPublicKey with
    | none => ({ h with lastError := .KEY_EXCHANGE_FAILED }, false, [])
    | some z =>
      let h := { h with sharedSecret := some z }
      let (h, msg) := buildMessage C h 3 []
      let h := { h with sessionId := C.hmac h.config.psk h.transcript }
      ({ h with state := .COMPLETE }, true, [msg])

/-- `Handshake::handle_finish`. -/
def handleFinish (C : CryptoModel) (h : Handshake) (_payload : List Nat) :
    Handshake × Bool × List (List Nat) :=
  if h.state ≠ .RESPONSE_SENT then ({ h with lastError := .INVALID_MESSAGE }, false, [])
  else
    let h := { h with sessionId := C.hmac h.config.psk h.transcript }
    ({ h with state := .COMPLETE }, true, [])

/-- `Handshake::process_message`: length, timestamp-window and HMAC checks in
order, transcript append, then dispatch by type. -/
def processMessage (C : CryptoModel) (h : Handshake) (message : List Nat) :
    Handshake × Bool × List (List Nat) :=
  if message.length < 11 + 32 then ({ h with lastError := .INVALID_MESSAGE }, false, [])
  else
    let t := message.getD 0 0
    let timestamp := readU64 (message.drop 1)
    let payloadLen := readU16 (message.drop 9)
    if message.length ≠ 11 + payloadLen + 32 then
      ({ h with lastError := .INVALID_MESSAGE }, false, [])
    else
      let diff := if timestamp > h.now then timestamp - h.now else h.now - timestamp
      if diff > h.config.timestampToleranceSec then
        ({ h with lastError := .TIMESTAMP_OUT_OF_RANGE }, false, [])
      else
        let msgWithoutHmac := message.take (11 + payloadLen)
        let receivedHmac := (message.drop (11 + payloadLen)).take 32
        if C.hmac h.config.psk msgWithoutHmac ≠ receivedHmac then
          ({ h with lastError := .HMAC_VERIFICATION_FAILED }, false, [])
        else
          let h := { h with transcript := h.transcript ++ message }
          let payload := (message.drop 11).take payloadLen
          match t with
          | 1 => handleInit C h payload
          | 2 => handleResponse C h payload
          | 3 => handleFinish C h payload
          | _ => ({ h with lastError := .INVALID_MESSAGE }, false, [])

/-- `memcmp(a, b, n) < 0` for equal-length byte arrays: strict lexicographic
order. -/
def bytesLt : List Nat → List Nat → Bool
  | [], _ => false
  | _ :: _, [] => false
  | a :: as, b :: bs => if a < b then true else if b < a then false else bytesLt as bs

structure HandshakeResult where
  sessionKeys : SessionKeys
  sessionId : List Nat
  isInitiator : Bool
  deriving Repr, DecidableEq

/-- `Handshake::result`: requires `COMPLETE` and a shared secret; the
`is_initiator` flag is recovered by a lexicographic comparison of the two
ephemeral public keys (`std::memcmp(...) < 0`), not from the state-machine
role. -/
def result (C : CryptoModel) (h : Handshake) : Option HandshakeResult :=
  if h.state ≠ .COMPLETE then none
  else
    match h.sharedSecret with
    | none => none
    | some z =>
      let isInit := bytesLt h.ourPublicKey h.peerPublicKey
      some ⟨deriveSessionKeys C z h.sessionId isInit, h.sessionId, isInit⟩

/-- A complete 3-message run between an initiator `(iSec, iPub)` and a
responder `(rSec, rPub)` sharing one PSK, both with clock `ts`: INIT is
produced by `initiate`, each inbound message is fed to `process_message`, and
the sent messages are forwarded verbatim.  Returns both endpoints' `result()`
when both reach COMPLETE. -/
def handshakeRun (C : CryptoModel) (psk iSec iPub rSec rPub : List Nat) (ts : Nat) :
    Option (HandshakeResult × HandshakeResult) :=
  let cfg : HandshakeConfig := { psk := psk }
  let hi0 : Handshake := { config := cfg, ourSecretKey := iSec, ourPublicKey := iPub, now := ts }
  let hr0 : Handshake := { config := cfg, ourSecretKey := rSec, ourPublicKey := rPub, now := ts }
  let si := initiate C hi0
  match si.2.2 with
  | [m1] =>
    let sr := processMessage C hr0 m1
    match sr.2.2 with
    | [m2] =>
      let si2 := processMessage C si.1 m2
      match si2.2.1, si2.2.2 with
      | true, [m3] =>
        let sr2 := processMessage C sr.1 m3
        if sr2.2.1 then
          match result C si2.1, result C sr2.1 with
          | some ri, some rr => some (ri, rr)
          | _, _ => none
        else none
      | _, _ => none
    | _ => none
  | _ => none

/-- A byte-valued order-sensitive toy hash, used to give the abstract crypto
primitives a concrete executable instance for closed counterexamples. -/
def toyHash (l : List Nat) : Nat := l.foldl (fun a c => (a * 31 + c) % 256) 7

/-- A concrete `CryptoModel` instance for closed counterexamples: `hmac`
returns 32 copies of an order-sensitive digest byte, `dh` always succeeds.
(The real primitives live in libsodium, outside the repository.) -/
def cryptoToy : CryptoModel where
  hmac := fun k m => List.replicate 32 (toyHash (k ++ m))
  dh := fun s p => some (List.replicate 32 ((s.sum + p.sum) % 256))
  hmac_len := fun _ _ => by simp

set_option maxRecDepth 10000 in
/-- C1 fails on the code: in a complete run where the initiator's ephemeral
public key (32 bytes of 9) compares lexicographically greater than the
responder's (32 bytes of 3), the endpoint that emitted INIT first — the one
that went IDLE → INIT_SENT → COMPLETE — gets `is_initiator = false` from
`Handshake::result`, and the responder gets `true`: the flag is computed by
`std::memcmp` on the public keys, not from the state machine. -/
theorem C1_role_flag_from_memcmp :
    let psk : HandshakeConfig := { psk := List.replicate 32 171 }
    let hi0 : Handshake := { config := psk,
                             ourSecretKey := List.replicate 32 5,
                             ourPublicKey := List.replicate 32 9,
                             now := 1700000000 }
    let hr0 : Handshake := { config := psk,
                             ourSecretKey := List.replicate 32 6,
                             ourPublicKey := List.replicate 32 3,
                             now := 1700000000 }
    let si := initiate cryptoToy hi0
    let sr := processMessage cryptoToy hr0 (si.2.2.getD 0 [])
    let si2 := processMessage cryptoToy si.1 (sr.2.2.getD 0 [])
    let sr2 := processMessage cryptoToy sr.1 (si2.2.2.getD 0 [])
    si.2.1 = true ∧ si.1.state = .INIT_SENT ∧
    si2.2.1 = true ∧ si2.1.state = .COMPLETE ∧
    sr2.2.1 = true ∧ sr2.1.state = .COMPLETE ∧
    (result cryptoToy si2.1).map (fun r => r.isInitiator) = some false ∧
    (result cryptoToy sr2.1).map (fun r => r.isInitiator) = some true := by
  decide

set_option maxRecDepth 10000 in
/-- C2 as stated fails on the code: in a run where the two endpoints happen to
generate byte-identical ephemeral key pairs, both sides complete the
handshake, both derive the same session id, but `memcmp` gives both the
responder role, so both select `key_r2i` as send key:
`initiator.send_key ≠ responder.recv_key`. -/
theorem C2_counterexample :
    let r := handshakeRun cryptoToy (List.replicate 32 171) (List.replicate 32 5)
      (List.replicate 32 7) (List.replicate 32 5) (List.replicate 32 7) 1700000000
    r.isSome = true ∧
    r.map (fun p => decide (p.1.sessionKeys.sendKey = p.2.sessionKeys.recvKey))
      = some false ∧
    r.map (fun p => decide (p.1.sessionId = p.2.sessionId)) = some true := by
  decide

theorem shl8_or_byte (v b : Nat) (hb : b < 256) : (v <<< 8) ||| b = v * 256 + b := by
  have hb' : b < 2 ^ 8 := by omega
  have h := Nat.mul_add_lt_is_or hb' v
  rw [Nat.shiftLeft_eq]
  have hc : v * 2 ^ 8 = 2 ^ 8 * v := Nat.mul_comm _ _
  rw [hc, ← h]
  norm_num [Nat.mul_comm]

theorem readU64_u64be (n : Nat) (rest : List Nat) :
    readU64 (u64be n ++ rest) = n % U64 := by
  show readU64 (u64be n ++ rest) = n % 2 ^ 64
  unfold readU64 u64be
  simp only [List.cons_append, List.take_succ_cons, List.take_zero, List.foldl_cons,
    List.foldl_nil]
  rw [shl8_or_byte _ _ (Nat.mod_lt _ (by norm_num))]
  rw [shl8_or_byte _ _ (Nat.mod_lt _ (by norm_num))]
  rw [shl8_or_byte _ _ (Nat.mod_lt _ (by norm_num))]
  rw [shl8_or_byte _ _ (Nat.mod_lt _ (by norm_num))]
  rw [shl8_or_byte _ _ (Nat.mod_lt _ (by norm_num))]
  rw [shl8_or_byte _ _ (Nat.mod_lt _ (by norm_num))]
  rw [shl8_or_byte _ _ (Nat.mod_lt _ (by norm_num))]
  rw [shl8_or_byte _ _ (Nat.mod_lt _ (by norm_num))]
  omega

theorem readU16_u16be (n : Nat) (rest : List Nat) :
    readU16 (u16be n ++ rest) = n % 2 ^ 16 := by
  unfold readU16 u16be
  simp only [List.cons_append, List.take_succ_cons, List.take_zero, List.foldl_cons,
    List.foldl_nil]
  rw [shl8_or_byte _ _ (Nat.mod_lt _ (by norm_num))]
  rw [shl8_or_byte _ _ (Nat.mod_lt _ (by norm_num))]
  omega

theorem mkEnvelope_assoc (C : CryptoModel) (psk : List Nat) (t ts : Nat) (payload : List Nat) :
    mkEnvelope C psk t ts payload
      = [t] ++ (u64be ts ++ (u16be (payload.length % 2 ^ 16) ++ (payload ++
          C.hmac psk ([t] ++ u64be ts ++ u16be (payload.length % 2 ^ 16) ++ payload)))) := by
  unfold mkEnvelope
  simp [List.append_assoc]

theorem mkEnvelope_length (C : CryptoModel) (psk : List Nat) (t ts : Nat) (payload : List Nat) :
    (mkEnvelope C psk t ts payload).length = 43 + payload.length := by
  unfold mkEnvelope
  simp [C.hmac_len, u64be, u16be]
  omega

theorem processMessage_mkEnvelope (C : CryptoModel) (h : Handshake) (t : Nat)
    (payload : List Nat) (hts : h.now < U64) (hpl : payload.length < 2 ^ 16) :
    processMessage C h (mkEnvelope C h.config.psk t h.now payload) =
      (match t with
       | 1 => handleInit C
          { h with transcript := h.transcript ++ mkEnvelope C h.config.psk t h.now payload }
          payload
       | 2 => handleResponse C
          { h with transcript := h.transcript ++ mkEnvelope C h.config.psk t h.now payload }
          payload
       | 3 => handleFinish C
          { h with transcript := h.transcript ++ mkEnvelope C h.config.psk t h.now payload }
          payload
       | _ =>
          ({ h with transcript := h.transcript ++ mkEnvelope C h.config.psk t h.now payload,
                    lastError := .INVALID_MESSAGE }, false, [])) := by
  have hlen := mkEnvelope_length C h.config.psk t h.now payload
  have hassoc := mkEnvelope_assoc C h.config.psk t h.now payload
  have hmaclen := C.hmac_len h.config.psk
    ([t] ++ u64be h.now ++ u16be (payload.length % 2 ^ 16) ++ payload)
  unfold processMessage
  rw [if_neg (by omega)]
  have hget : (mkEnvelope C h.config.psk t h.now payload).getD 0 0 = t := by
    rw [hassoc]; rfl
  have hdrop1 : (mkEnvelope C h.config.psk t h.now payload).drop 1
      = u64be h.now ++ (u16be (payload.length % 2 ^ 16) ++ (payload ++
          C.hmac h.config.psk
            ([t] ++ u64be h.now ++ u16be (payload.length % 2 ^ 16) ++ payload))) := by
    rw [hassoc]; rfl
  have hts64 : readU64 ((mkEnvelope C h.config.psk t h.now payload).drop 1) = h.now := by
    rw [hdrop1, readU64_u64be, Nat.mod_eq_of_lt hts]
  have hdrop9 : (mkEnvelope C h.config.psk t h.now payload).drop 9
      = u16be (payload.length % 2 ^ 16) ++ (payload ++
          C.hmac h.config.psk
            ([t] ++ u64be h.now ++ u16be (payload.length % 2 ^ 16) ++ payload)) := by
    rw [hassoc]; rfl
  have hpl16 : readU16 ((mkEnvelope C h.config.psk t h.now payload).drop 9)
      = payload.length := by
    rw [hdrop9, readU16_u16be]
    omega
  rw [hget, hts64, hpl16]
  rw [if_neg (by omega)]
  rw [if_neg (by simp)]
  have hpre : (mkEnvelope C h.config.psk t h.now payload).take (11 + payload.length)
      = [t] ++ u64be h.now ++ u16be (payload.length % 2 ^ 16) ++ payload := by
    unfold mkEnvelope
    apply List.take_left'
    simp [u64be, u16be]
    omega
  have hrcv : ((mkEnvelope C h.config.psk t h.now payload).drop (11 + payload.length)).take 32
      = C.hmac h.config.psk ([t] ++ u64be h.now ++ u16be (payload.length % 2 ^ 16) ++ payload) := by
    unfold mkEnvelope
    rw [List.drop_left' (by simp [u64be, u16be]; omega)]
    rw [← hmaclen, List.take_length]
  have hpayl : ((mkEnvelope C h.config.psk t h.now payload).drop 11).take payload.length
      = payload := by
    rw [hassoc]
    have : ([t] ++ (u64be h.now ++ (u16be (payload.length % 2 ^ 16) ++ (payload ++
        C.hmac h.config.psk ([t] ++ u64be h.now ++ u16be (payload.length % 2 ^ 16) ++ payload)))))
        = ([t] ++ u64be h.now ++ u16be (payload.length % 2 ^ 16)) ++ (payload ++
            C.hmac h.config.psk ([t] ++ u64be h.now ++ u16be (payload.length % 2 ^ 16) ++ payload)) := by
      simp [List.append_assoc]
    rw [this, List.drop_left' (by simp [u64be, u16be]), List.take_left' rfl]
  rw [hpre, hrcv]
  rw [if_neg (by simp)]
  rw [hpayl]

theorem bytesLt_asymm : ∀ a b : List Nat, bytesLt a b = true → bytesLt b a = false := by
  intro a
  induction a with
  | nil => intro b h; cases b <;> simp [bytesLt] at h
  | cons x as ih =>
    intro b h
    cases b with
    | nil => simp [bytesLt] at h
    | cons y bs =>
      simp only [bytesLt] at h ⊢
      split_ifs at h ⊢
      all_goals first
        | rfl
        | omega
        | (exact ih bs h)

theorem bytesLt_total_of_ne : ∀ a b : List Nat, a.length = b.length → a ≠ b →
    bytesLt a b = true ∨ bytesLt b a = true := by
  intro a
  induction a with
  | nil =>
    intro b hlen hne
    cases b with
    | nil => exact absurd rfl hne
    | cons y bs => simp at hlen
  | cons x as ih =>
    intro b hlen hne
    cases b with
    | nil => simp at hlen
    | cons y bs =>
      simp only [bytesLt]
      by_cases h1 : x < y
      · left; simp [h1]
      · by_cases h2 : y < x
        · right; simp [h2]
        · have hxy : x = y := by omega
          subst hxy
          have hne' : as ≠ bs := by
            intro hc; exact hne (by rw [hc])
          have hlen' : as.length = bs.length := by simpa using hlen
          rcases ih bs hlen' hne' with h | h
          · left; simp [h1, h2, h]
          · right; simp [h1, h2, h]

/-- C2 (amended): in every run in which the two endpoints share a PSK,
their X25519 exchanges agree on a shared secret `Z` (a property of the
external primitive), and their 32-byte ephemeral public keys are **distinct**,
the 3-message handshake completes on both sides with
`initiator.send_key = responder.recv_key`,
`initiator.recv_key = responder.send_key`, likewise for the two nonce bases,
and the identical transcript-derived
`session_id = HMAC-SHA256(PSK, INIT ‖ RESPONSE ‖ FINISH)`.  (When the public
keys are byte-equal, the `memcmp` role recovery gives both endpoints the same
role and key symmetry fails — see `C2_counterexample`.) -/
theorem C2_handshake_symmetry (C : CryptoModel) (psk iSec iPub rSec rPub : List Nat)
    (ts : Nat) (Z : List Nat)
    (hlI : iPub.length = 32) (hlR : rPub.length = 32) (hts : ts < U64)
    (hdh1 : C.dh iSec rPub = some Z) (hdh2 : C.dh rSec iPub = some Z)
    (hne : iPub ≠ rPub) :
    ∃ ri rr, handshakeRun C psk iSec iPub rSec rPub ts = some (ri, rr) ∧
      ri.sessionKeys.sendKey = rr.sessionKeys.recvKey ∧
      ri.sessionKeys.recvKey = rr.sessionKeys.sendKey ∧
      ri.sessionKeys.sendNonceBase = rr.sessionKeys.recvNonceBase ∧
      ri.sessionKeys.recvNonceBase = rr.sessionKeys.sendNonceBase ∧
      ri.sessionId = rr.sessionId := by
  have hplI : iPub.length < 2 ^ 16 := by omega
  have hplR : rPub.length < 2 ^ 16 := by omega
  unfold handshakeRun
  dsimp only
  set m1 := mkEnvelope C psk 1 ts iPub with hm1
  set m2 := mkEnvelope C psk 2 ts rPub with hm2
  set m3 := mkEnvelope C psk 3 ts [] with hm3
  set sid := C.hmac psk ((m1 ++ m2) ++ m3) with hsid
  have e1 : initiate C ⟨⟨psk, 60⟩, .IDLE, .NONE, iSec, iPub, List.replicate 32 0, none,
        List.replicate 32 0, [], ts⟩
      = (⟨⟨psk, 60⟩, .INIT_SENT, .NONE, iSec, iPub, List.replicate 32 0, none,
          List.replicate 32 0, m1, ts⟩, true, [m1]) := by
    rw [hm1]
    unfold initiate buildMessage
    rfl
  rw [e1]
  dsimp only
  have e2 : processMessage C (⟨⟨psk, 60⟩, .IDLE, .NONE, rSec, rPub, List.replicate 32 0,
        none, List.replicate 32 0, [], ts⟩ : Handshake) m1
      = handleInit C ⟨⟨psk, 60⟩, .IDLE, .NONE, rSec, rPub, List.replicate 32 0, none,
          List.replicate 32 0, m1, ts⟩ iPub := by
    rw [hm1]
    exact processMessage_mkEnvelope C _ 1 iPub hts hplI
  rw [e2]
  have e3 : handleInit C (⟨⟨psk, 60⟩, .IDLE, .NONE, rSec, rPub, List.replicate 32 0, none,
        List.replicate 32 0, m1, ts⟩ : Handshake) iPub
      = (⟨⟨psk, 60⟩, .RESPONSE_SENT, .NONE, rSec, rPub, iPub, some Z,
          List.replicate 32 0, m1 ++ m2, ts⟩, false, [m2]) := by
    unfold handleInit buildMessage
    dsimp only
    simp only [hlI]
    rw [hdh2]
    rw [hm2]
    rfl
  rw [e3]
  dsimp only
  have e4 : processMessage C (⟨⟨psk, 60⟩, .INIT_SENT, .NONE, iSec, iPub,
        List.replicate 32 0, none, List.replicate 32 0, m1, ts⟩ : Handshake) m2
      = handleResponse C ⟨⟨psk, 60⟩, .INIT_SENT, .NONE, iSec, iPub, List.replicate 32 0,
          none, List.replicate 32 0, m1 ++ m2, ts⟩ rPub := by
    rw [hm2]
    exact processMessage_mkEnvelope C _ 2 rPub hts hplR
  rw [e4]
  have e5 : handleResponse C (⟨⟨psk, 60⟩, .INIT_SENT, .NONE, iSec, iPub,
        List.replicate 32 0, none, List.replicate 32 0, m1 ++ m2, ts⟩ : Handshake) rPub
      = (⟨⟨psk, 60⟩, .COMPLETE, .NONE, iSec, iPub, rPub, some Z,
          sid, (m1 ++ m2) ++ m3, ts⟩, true, [m3]) := by
    unfold handleResponse buildMessage
    dsimp only
    simp only [hlR]
    rw [hdh1]
    rw [hm3, hsid]
    rfl
  rw [e5]
  dsimp only
  have e6 : processMessage C (⟨⟨psk, 60⟩, .RESPONSE_SENT, .NONE, rSec, rPub, iPub,
        some Z, List.replicate 32 0, m1 ++ m2, ts⟩ : Handshake) m3
      = handleFinish C ⟨⟨psk, 60⟩, .RESPONSE_SENT, .NONE, rSec, rPub, iPub, some Z,
          List.replicate 32 0, (m1 ++ m2) ++ m3, ts⟩ [] := by
    rw [hm3]
    exact processMessage_mkEnvelope C _ 3 [] hts (by norm_num)
  rw [e6]
  have e7 : handleFinish C (⟨⟨psk, 60⟩, .RESPONSE_SENT, .NONE, rSec, rPub, iPub, some Z,
        List.replicate 32 0, (m1 ++ m2) ++ m3, ts⟩ : Handshake) []
      = (⟨⟨psk, 60⟩, .COMPLETE, .NONE, rSec, rPub, iPub, some Z,
          sid, (m1 ++ m2) ++ m3, ts⟩, true, []) := by
    unfold handleFinish
    rw [hsid]
    rfl
  rw [e7]
  dsimp only
  have e8 : result C (⟨⟨psk, 60⟩, .COMPLETE, .NONE, iSec, iPub, rPub, some Z,
        sid, (m1 ++ m2) ++ m3, ts⟩ : Handshake)
      = some ⟨deriveSessionKeys C Z sid (bytesLt iPub rPub), sid, bytesLt iPub rPub⟩ := by
    unfold result
    rfl
  have e9 : result C (⟨⟨psk, 60⟩, .COMPLETE, .NONE, rSec, rPub, iPub, some Z,
        sid, (m1 ++ m2) ++ m3, ts⟩ : Handshake)
      = some ⟨deriveSessionKeys C Z sid (bytesLt rPub iPub), sid, bytesLt rPub iPub⟩ := by
    unfold result
    rfl
  rw [e8, e9]
  dsimp only
  refine ⟨_, _, rfl, ?_, ?_, ?_, ?_, rfl⟩ <;>
    (cases hlt : bytesLt iPub rPub with
     | true =>
        have hlt2 : bytesLt rPub iPub = false := bytesLt_asymm _ _ hlt
        simp [deriveSessionKeys, hlt, hlt2]
     | false =>
        have hlt2 : bytesLt rPub iPub = true := by
          rcases bytesLt_total_of_ne iPub rPub (by omega) hne with h | h
          · rw [h] at hlt; cases hlt
          · exact h
        simp [deriveSessionKeys, hlt, hlt2])

set_option maxRecDepth 10000 in
/-- Closed witness for `C2_handshake_symmetry` with the toy crypto model:
initiator keys (5..., 9...) and responder keys (7..., 11...), whose toy DH
values agree, complete the run with symmetric session keys. -/
theorem C2_handshake_symmetry_witness :
    ∃ ri rr, handshakeRun cryptoToy (List.replicate 32 171) (List.replicate 32 5)
        (List.replicate 32 9) (List.replicate 32 7) (List.replicate 32 11) 1700000000
      = some (ri, rr) ∧
      ri.sessionKeys.sendKey = rr.sessionKeys.recvKey ∧
      ri.sessionKeys.recvKey = rr.sessionKeys.sendKey ∧
      ri.sessionKeys.sendNonceBase = rr.sessionKeys.recvNonceBase ∧
      ri.sessionKeys.recvNonceBase = rr.sessionKeys.sendNonceBase ∧
      ri.sessionId = rr.sessionId :=
  C2_handshake_symmetry cryptoToy (List.replicate 32 171) (List.replicate 32 5)
    (List.replicate 32 9) (List.replicate 32 7) (List.replicate 32 11) 1700000000
    (List.replicate 32 0) (by decide) (by decide) (by decide)
    (by decide) (by decide) (by decide)

/-! ## Rate limiter and transport-session send path
(src/src/mux/rate_limiter.cpp, src/src/transport/transport_session.cpp)

Only the pieces the send path touches are modelled: the token buckets, the
session rotator's counters, and `TransportSession::send` /
`send_packet_internal`.  The UDP socket is out of scope; the outcome of
`socket_.send_to` is a boolean parameter `sockOk`, and the bytes handed to it
are returned so they stay observable.  `send_packet_internal` can throw (via
`PacketBuilder::build` without a key), hence the `Option` result. -/

structure RateLimiterConfig where
  packetsPerSecond : Nat := 10000
  bytesPerSecond : Nat := 100000000
  burstPackets : Nat := 100
  burstBytes : Nat := 1000000
  deriving Repr, DecidableEq

structure RateLimiter where
  config : RateLimiterConfig
  packetTokens : Nat
  byteTokens : Nat
  packetsDropped : Nat
  bytesDropped : Nat
  deriving Repr, DecidableEq

namespace RateLimiter

/-- Constructed with full buckets. -/
def init (cfg : RateLimiterConfig) : RateLimiter :=
  ⟨cfg, cfg.burstPackets, cfg.burstBytes, 0, 0⟩

/-- `RateLimiter::check`. -/
def check (rl : RateLimiter) (packetBytes : Nat) : Bool :=
  rl.packetTokens ≥ 1 && rl.byteTokens ≥ packetBytes

/-- `RateLimiter::consume`. -/
def consume (rl : RateLimiter) (packetBytes : Nat) : RateLimiter :=
  let rl := if rl.packetTokens > 0 then { rl with packetTokens := rl.packetTokens - 1 } else rl
  if rl.byteTokens ≥ packetBytes then { rl with byteTokens := rl.byteTokens - packetBytes }
  else { rl with byteTokens := 0 }

/-- `RateLimiter::try_consume`. -/
def tryConsume (rl : RateLimiter) (packetBytes : Nat) : RateLimiter × Bool :=
  if !rl.check packetBytes then
    ({ rl with packetsDropped := rl.packetsDropped + 1,
               bytesDropped := rl.bytesDropped + packetBytes }, false)
  else (rl.consume packetBytes, true)

/-- `RateLimiter::refill`. -/
def refill (rl : RateLimiter) (elapsedMs : Nat) : RateLimiter :=
  if elapsedMs = 0 then rl
  else
    { rl with
        packetTokens := min (rl.packetTokens + rl.config.packetsPerSecond * elapsedMs / 1000)
          rl.config.burstPackets,
        byteTokens := min (rl.byteTokens + rl.config.bytesPerSecond * elapsedMs / 1000)
          rl.config.burstBytes }

end RateLimiter

inductive SessionState where
  | DISCONNECTED
  | HANDSHAKING
  | CONNECTED
  | CLOSING
  | CLOSED
  deriving Repr, DecidableEq

/-- The slice of `SessionRotator` the send path touches. -/
structure SessionRotator where
  currentSessionId : Nat
  packetsSent : Nat
  bytesSent : Nat
  packetsReceived : Nat
  bytesReceived : Nat
  deriving Repr, DecidableEq

/-- `SessionRotator::on_packet_sent`. -/
def SessionRotator.onPacketSent (r : SessionRotator) (bytes : Nat) : SessionRotator :=
  { r with packetsSent := r.packetsSent + 1, bytesSent := r.bytesSent + bytes }

structure TransportStats where
  packetsSent : Nat := 0
  bytesSent : Nat := 0
  packetsDroppedRateLimit : Nat := 0
  messagesFragmented : Nat := 0
  deriving Repr, DecidableEq

/-- The send-path state of `TransportSession`. -/
structure TransportSession where
  mtu : Nat
  state : SessionState
  sendSequence : Nat
  nextMessageId : Nat
  rateLimiter : RateLimiter
  retransmission : RetransmissionManager
  packetBuilder : PacketBuilder
  rotator : SessionRotator
  sendKey : List Nat
  sendNonceBase : List Nat
  stats : TransportStats
  deriving Repr

namespace TransportSession

/-- `TransportSession::send_packet_internal`.  Returns the new session state,
the C++ boolean result, and the datagram handed to `socket_.send_to` (empty
when nothing was sent).  `sockOk` stands for the out-of-scope UDP send
outcome; `none` models the uncaught exception of `build` without a key. -/
def sendPacketInternal (A : AeadScheme) (ts : TransportSession) (frame : Frame)
    (nowMs : Nat) (sockOk : Bool) :
    Option (TransportSession × Bool × List Nat) :=
  let fsize := frameSize frame
  let rlr := ts.rateLimiter.tryConsume fsize
  if !rlr.2 then
    some ({ ts with
              rateLimiter := rlr.1,
              stats := { ts.stats with
                           packetsDroppedRateLimit := ts.stats.packetsDroppedRateLimit + 1 } },
      false, [])
  else
    let ts := { ts with rateLimiter := rlr.1 }
    let b := ((ts.packetBuilder.reset).setSessionId ts.rotator.currentSessionId).setEncryptionKey
      ts.sendKey ts.sendNonceBase
    let ar := b.addFrame frame
    if !ar.2 then some ({ ts with packetBuilder := ar.1 }, false, [])
    else
      let ts := { ts with packetBuilder := ar.1 }
      match ar.1.build A ts.sendSequence with
      | .noKey => none
      | .empty =>
        -- unreachable here (the frame buffer is non-empty); the C++ would
        -- continue with an empty vector
        some (ts, false, [])
      | .ok packetBytes =>
        let ts :=
          if (frameType frame) = 0x01 then
            { ts with retransmission :=
                (ts.retransmission.registerPacket ts.sendSequence packetBytes nowMs).1 }
          else ts
        if sockOk then
          some ({ ts with
              sendSequence := ts.sendSequence + 1,
              stats := { ts.stats with
                packetsSent := ts.stats.packetsSent + 1,
                bytesSent := ts.stats.bytesSent + packetBytes.length },
              rotator := ts.rotator.onPacketSent packetBytes.length },
            true, packetBytes)
        else some (ts, false, packetBytes)

/-- `TransportSession::fragment_data` (chunking loop). -/
def fragmentChunks (data : List Nat) (maxFragment : Nat) : Nat → Nat → List (List Nat)
  | 0, _ => []
  | fuel + 1, offset =>
    if offset ≥ data.length then []
    else ((data.drop offset).take maxFragment)
      :: fragmentChunks data maxFragment fuel (offset + maxFragment)

def fragmentData (ts : TransportSession) (data : List Nat) :
    TransportSession × List Frame :=
  let maxFragment := ts.mtu - 16 - 4 - 8 - 16
  let msgId := ts.nextMessageId
  let ts := { ts with nextMessageId := ts.nextMessageId + 1 }
  let total := (data.length + maxFragment - 1) / maxFragment
  let chunks := fragmentChunks data maxFragment data.length 0
  (ts, chunks.enum.map (fun c => Frame.fragment msgId (c.1 % 2 ^ 16) (total % 2 ^ 16) c.2))

/-- `TransportSession::send`. -/
def send (A : AeadScheme) (ts : TransportSession) (data : List Nat) (nowMs : Nat)
    (sockOk : Bool) : Option (TransportSession × Bool) :=
  if ts.state ≠ .CONNECTED then some (ts, false)
  else
    let maxPayload := ts.mtu - 16 - 4 - 8 - 16
    if data.length ≤ maxPayload then
      let frame := Frame.data ts.sendSequence data
      let ts := { ts with sendSequence := ts.sendSequence + 1 }
      match sendPacketInternal A ts frame nowMs sockOk with
      | none => none
      | some (ts, sent, _) => some (ts, sent)
    else
      let fr := fragmentData ts data
      let ts := { fr.1 with stats := { fr.1.stats with
        messagesFragmented := fr.1.stats.messagesFragmented + 1 } }
      fr.2.foldl
        (fun acc frag =>
          match acc with
          | none => none
          | some (ts, success) =>
            match sendPacketInternal A ts frag nowMs sockOk with
            | none => none
            | some (ts, sent, _) => some (ts, success && sent))
        (some (ts, true))

end TransportSession

set_option maxRecDepth 10000 in
/-- C7: its first half holds — `send_packet_internal` registers nothing with
the retransmission manager for ACK, CONTROL, FRAGMENT, HANDSHAKE and
SESSION_ROTATE frames — but the DATA half fails on the code:
`TransportSession::send` assigns `frame.sequence_number = send_sequence_++`
and `send_packet_internal` then calls
`retransmission_.register_packet(send_sequence_, ...)` with the
already-incremented counter, so the unacked entry for the DATA frame with
sequence 1 is keyed 2 (and the packet itself is built with counter 2).  The
stored bytes are the sealed packet whose plaintext still carries sequence 1,
and `send_sequence_` grows by 2 per DATA send. -/
theorem C7_data_registration_keying :
    let ts0 : TransportSession :=
      { mtu := 1400, state := .CONNECTED, sendSequence := 1, nextMessageId := 1,
        rateLimiter := RateLimiter.init {},
        retransmission := RetransmissionManager.init {},
        packetBuilder := PacketBuilder.init 1400,
        rotator := ⟨99, 0, 0, 0, 0⟩,
        sendKey := List.replicate 32 1, sendNonceBase := List.replicate 12 2,
        stats := {} }
    let r := TransportSession.send aeadToy ts0 [1, 2, 3] 50 true
    let hdr := u64be 99 ++ u64be 2
    let expectedPkt := hdr ++ aeadToy.sealFn (List.replicate 32 1)
      (makeNonce (List.replicate 12 2) 2) hdr (serializeFrame (Frame.data 1 [1, 2, 3]))
    r.map (fun p => p.2) = some true ∧
    r.map (fun p => p.1.retransmission.unacked.map Prod.fst) = some [2] ∧
    r.map (fun p => p.1.retransmission.unacked.map (fun kv => kv.2.data))
      = some [expectedPkt] ∧
    r.map (fun p => p.1.sendSequence) = some 3 ∧
    (TransportSession.sendPacketInternal aeadToy ts0 (Frame.ack 5 0 64) 50 true).map
      (fun p => (p.2.1, p.1.retransmission.unacked.length)) = some (true, 0) ∧
    (TransportSession.sendPacketInternal aeadToy ts0 (Frame.control 1 123 []) 50 true).map
      (fun p => (p.2.1, p.1.retransmission.unacked.length)) = some (true, 0) ∧
    (TransportSession.sendPacketInternal aeadToy ts0 (Frame.fragment 7 0 2 [1]) 50 true).map
      (fun p => (p.2.1, p.1.retransmission.unacked.length)) = some (true, 0) ∧
    (TransportSession.sendPacketInternal aeadToy ts0 (Frame.handshake 1 [1, 2]) 50 true).map
      (fun p => (p.2.1, p.1.retransmission.unacked.length)) = some (true, 0) ∧
    (TransportSession.sendPacketInternal aeadToy ts0
        (Frame.sessionRotate (List.replicate 32 0) 9) 50 true).map
      (fun p => (p.2.1, p.1.retransmission.unacked.length)) = some (true, 0) := by
  decide

end Veil
